import Mathlib

/-!
# Azure secrets credential client: a shallow embedding

Source files embedded here: `client.go` (package `azuresecrets`) and
`plugin/path_config.go`.

Conventions of the embedding.

* Go `error` values are terms of `GoError`; a nil error is `none`.
* Everything outside the client (the Azure provider, the entropy behind
  `uuid.GenerateUUID`, the password generator) is an arbitrary deterministic
  machine over a state type `π`; the client threads a `World π` through its
  calls and records every provider call, with the answer it got, in `World.log`.
* Instants and durations are integers in nanoseconds, as in package `time`. A provider call
  takes no time on the clock `World.now`; the clock advances in the waits of `retry`.
-/

namespace AzureSecrets

/-! ## Errors -/

/-- Go error values, by the way they are built in the source. -/
inductive GoError where
  /-- The value of `errors.New(text)`; also any error of the provider or of a library, by its text. -/
  | New (text : String)
  /-- The value of `errwrap.Wrapf(format, inner)`. -/
  | Wrapf (format : String) (inner : GoError)
  /-- The value of `fmt.Errorf(format, inner)` for a format that ends in the verb `%w`; `lead` is the format without the verb. -/
  | Errorf (lead : String) (inner : GoError)
  deriving DecidableEq, Repr

/-- The placeholder that `errwrap.Wrapf` replaces by the text of the inner error. -/
def errwrap.placeholder : List Char := "\x7b\x7berr\x7d\x7d".data

/-- Replace every placeholder of a format by `inner` (`strings.Replace(format, placeholder, inner, -1)`);
`skip` counts the characters of a placeholder that are still to be dropped. -/
def errwrap.subst (inner : List Char) : Nat → List Char → List Char
  | _, [] => []
  | skip + 1, _ :: rest => errwrap.subst inner skip rest
  | 0, c :: rest =>
    if errwrap.placeholder.isPrefixOf (c :: rest) then inner ++ errwrap.subst inner 6 rest
    else c :: errwrap.subst inner 0 rest

/-- The method `Error()`: the text of an error. -/
def GoError.Error : GoError → String
  | .New text => text
  | .Wrapf format inner => String.mk (errwrap.subst inner.Error.data 0 format.data)
  | .Errorf lead inner => lead ++ inner.Error

/-- The function `strings.Contains(s, substr)`. -/
def strings.Contains (s substr : String) : Bool :=
  decide (substr.data <:+: s.data)

/-- The type `*multierror.Error`: the list of the errors collected so far. -/
structure MultiError where
  Errors : List GoError
  deriving DecidableEq, Repr

/-- The function `multierror.Append(merr, err)` for a non-nil `err` that is not itself an aggregate:
a nil aggregate is created empty, then `err` is appended. -/
def multierror.Append (merr : Option MultiError) (err : GoError) : Option MultiError :=
  match merr with
  | none => some ⟨[err]⟩
  | some m => some ⟨m.Errors ++ [err]⟩

/-- The method `ErrorOrNil()`: nil for a nil aggregate and for an aggregate without errors. -/
def multierror.ErrorOrNil (merr : Option MultiError) : Option MultiError :=
  match merr with
  | none => none
  | some m => if m.Errors = [] then none else some m

/-! ## The provider and the world -/

/-- The type `graphrbac.PasswordCredential`; every field is a pointer in Go, nil is `none`. -/
structure PasswordCredential where
  StartDate : Option Int
  EndDate : Option Int
  KeyID : Option String
  Value : Option String
  deriving DecidableEq, Repr

/-- The function `to.String`: the string behind a pointer, the empty string for nil. -/
def to.String (s : Option String) : String :=
  match s with
  | some v => v
  | none => ""

/-- The type `AzureRole`, with the fields that `assignRoles` reads. -/
structure AzureRole where
  RoleID : String
  Scope : String
  deriving DecidableEq, Repr

/-- The type `authorization.RoleAssignment`, with the field that `assignRoles` reads. -/
structure RoleAssignment where
  ID : Option String
  deriving DecidableEq, Repr

/-- The type `autorest.Response`: the status code of the embedded `*http.Response`, `none` when that pointer is nil. -/
structure AutorestResponse where
  StatusCode : Option Nat
  deriving DecidableEq, Repr

/-- One provider call made by the client, with its arguments and the answer it received. -/
inductive Call where
  | ListApplicationPasswordCredentials (appObjID : String)
      (Value : Option (List PasswordCredential)) (err : Option GoError)
  | UpdateApplicationPasswordCredentials (appObjID : String) (creds : List PasswordCredential)
      (err : Option GoError)
  | DeleteApplication (appObjectID : String) (resp : AutorestResponse) (err : Option GoError)
  | CreateRoleAssignment (scope assignmentID roleDefinitionID : String) (principalID : Option String)
      (ra : RoleAssignment) (err : Option GoError)
  | DeleteRoleAssignmentByID (id : String) (err : Option GoError)
  deriving DecidableEq, Repr

/-- The part of the interface `AzureProvider` that the embedded functions call, as a machine over `π`.
Each method gives the pair (result, error) of the Go method and the next outside state. -/
structure AzureProvider (π : Type) where
  /-- The result is the field `Value` of the answer, a pointer to the list. -/
  ListApplicationPasswordCredentials :
    String → π → (Option (List PasswordCredential) × Option GoError) × π
  UpdateApplicationPasswordCredentials :
    String → List PasswordCredential → π → Option GoError × π
  DeleteApplication : String → π → (AutorestResponse × Option GoError) × π
  CreateRoleAssignment :
    String → String → String → Option String → π → (RoleAssignment × Option GoError) × π
  DeleteRoleAssignmentByID : String → π → Option GoError × π

/-- The type `client`, with the fields the embedded functions use. -/
structure client (π : Type) where
  provider : AzureProvider π
  /-- The method `c.passwords.generate(ctx)`; the type `passwords` is declared outside the embedded
  files, so the method is a parameter. -/
  passwords_generate : π → (String × Option GoError) × π

/-- The library function `uuid.GenerateUUID()`, which draws on the entropy of the outside world. -/
structure UUIDSource (π : Type) where
  GenerateUUID : π → (String × Option GoError) × π

/-- The world a client call runs in. -/
structure World (π : Type) where
  /-- State of everything outside the client. -/
  ext : π
  /-- The clock behind `time.Now()`, in nanoseconds. -/
  now : Nat
  /-- The provider calls made so far, oldest first. -/
  log : List Call

/-- How a Go call ends: it returns, or it panics. -/
inductive Outcome (α : Type) where
  | ret (a : α)
  | panic (msg : String)
  deriving DecidableEq, Repr

/-- The method `c.provider.DeleteRoleAssignmentByID(ctx, id)`, recorded in the log. -/
def World.DeleteRoleAssignmentByID {π : Type} (p : AzureProvider π) (id : String) (w : World π) :
    Option GoError × World π :=
  let r := p.DeleteRoleAssignmentByID id w.ext
  (r.1, { w with ext := r.2, log := w.log ++ [Call.DeleteRoleAssignmentByID id r.1] })

/-- The method `c.provider.DeleteApplication(ctx, appObjectID)`, recorded in the log. -/
def World.DeleteApplication {π : Type} (p : AzureProvider π) (appObjectID : String) (w : World π) :
    (AutorestResponse × Option GoError) × World π :=
  let r := p.DeleteApplication appObjectID w.ext
  (r.1, { w with ext := r.2, log := w.log ++ [Call.DeleteApplication appObjectID r.1.1 r.1.2] })

/-- The method `c.provider.ListApplicationPasswordCredentials(ctx, appObjID)`, recorded in the log. -/
def World.ListApplicationPasswordCredentials {π : Type} (p : AzureProvider π) (appObjID : String)
    (w : World π) : (Option (List PasswordCredential) × Option GoError) × World π :=
  let r := p.ListApplicationPasswordCredentials appObjID w.ext
  (r.1, { w with ext := r.2,
                 log := w.log ++ [Call.ListApplicationPasswordCredentials appObjID r.1.1 r.1.2] })

/-- The method `c.provider.UpdateApplicationPasswordCredentials(ctx, appObjID, parameters)`, recorded
in the log; `creds` is the list behind `parameters.Value`. -/
def World.UpdateApplicationPasswordCredentials {π : Type} (p : AzureProvider π) (appObjID : String)
    (creds : List PasswordCredential) (w : World π) : Option GoError × World π :=
  let r := p.UpdateApplicationPasswordCredentials appObjID creds w.ext
  (r.1, { w with ext := r.2,
                 log := w.log ++ [Call.UpdateApplicationPasswordCredentials appObjID creds r.1] })

/-- The method `c.provider.CreateRoleAssignment(ctx, scope, name, parameters)`, recorded in the log;
the parameters are the role definition ID and the principal ID. -/
def World.CreateRoleAssignment {π : Type} (p : AzureProvider π) (scope assignmentID roleID : String)
    (principalID : Option String) (w : World π) : (RoleAssignment × Option GoError) × World π :=
  let r := p.CreateRoleAssignment scope assignmentID roleID principalID w.ext
  (r.1, { w with ext := r.2,
                 log := w.log ++
                   [Call.CreateRoleAssignment scope assignmentID roleID principalID r.1.1 r.1.2] })

/-- The library function `uuid.GenerateUUID()` run in a world. -/
def World.GenerateUUID {π : Type} (u : UUIDSource π) (w : World π) :
    (String × Option GoError) × World π :=
  let r := u.GenerateUUID w.ext
  (r.1, { w with ext := r.2 })

/-- The method `c.passwords.generate(ctx)` run in a world. -/
def World.generate {π : Type} (c : client π) (w : World π) : (String × Option GoError) × World π :=
  let r := c.passwords_generate w.ext
  (r.1, { w with ext := r.2 })

/-! ## `unassignRoles` and `deleteApp` -/

/-- The loop of `unassignRoles`: every ID is tried, a failure is wrapped and appended. -/
def unassignRoles.loop {π : Type} (c : client π) :
    List String → Option MultiError → World π → Option MultiError × World π
  | [], merr, w => (merr, w)
  | id :: rest, merr, w =>
    match World.DeleteRoleAssignmentByID c.provider id w with
    | (some err, w1) =>
      unassignRoles.loop c rest
        (multierror.Append merr (GoError.Wrapf "error unassigning role: \x7b\x7berr\x7d\x7d" err)) w1
    | (none, w1) => unassignRoles.loop c rest merr w1

/-- The function `unassignRoles`. -/
def unassignRoles {π : Type} (c : client π) (roleIDs : List String) (w : World π) :
    Option MultiError × World π :=
  let r := unassignRoles.loop c roleIDs none w
  (multierror.ErrorOrNil r.1, r.2)

/-- The function `deleteApp`. -/
def deleteApp {π : Type} (c : client π) (appObjectID : String) (w : World π) :
    Option GoError × World π :=
  match World.DeleteApplication c.provider appObjectID w with
  | ((resp, err), w1) =>
    -- Don't consider it an error if the object wasn't present
    if err ≠ none ∧ resp.StatusCode ≠ none ∧ resp.StatusCode = some 404 then (none, w1)
    else (err, w1)

/-! ## Password credentials -/

/-- The statement `keyID = "ffffff" + keyID[6:]`; the slice panics on a string shorter than six
bytes. A UUID is ASCII text, on which byte offsets and character offsets agree. -/
def markKeyID (keyID : String) : Outcome String :=
  if keyID.length < 6 then Outcome.panic "slice bounds out of range"
  else Outcome.ret ("ffffff" ++ keyID.drop 6)

/-- The function `addAppPassword`; `duration` is in nanoseconds. The result is the triple
(keyID, password, err) of the Go function. -/
def addAppPassword {π : Type} (u : UUIDSource π) (c : client π) (appObjID : String) (duration : Int)
    (w : World π) : Outcome (String × String × Option GoError) × World π :=
  match World.GenerateUUID u w with
  | ((_, some err), w1) => (.ret ("", "", some err), w1)
  | ((generated, none), w1) =>
    match markKeyID generated with
    | .panic msg => (.panic msg, w1)
    | .ret keyID =>
      match World.generate c w1 with
      | ((_, some err), w2) => (.ret ("", "", some err), w2)
      | ((password, none), w2) =>
        let now : Int := w2.now
        let cred : PasswordCredential :=
          { StartDate := some now, EndDate := some (now + duration),
            KeyID := some keyID, Value := some password }
        -- Load current credentials
        match World.ListApplicationPasswordCredentials c.provider appObjID w2 with
        | ((_, some err), w3) =>
          (.ret ("", "", some (GoError.Wrapf "error fetching credentials: \x7b\x7berr\x7d\x7d" err)), w3)
        | ((none, none), w3) => (.panic "invalid memory address or nil pointer dereference", w3)
        | ((some curCreds, none), w3) =>
          -- Add and save credentials
          match World.UpdateApplicationPasswordCredentials c.provider appObjID (curCreds ++ [cred]) w3 with
          | (some err, w4) =>
            let err1 :=
              if strings.Contains err.Error "size of the object has exceeded its limit" then
                GoError.New "maximum number of Application passwords reached"
              else err
            (.ret ("", "", some (GoError.Wrapf "error updating credentials: \x7b\x7berr\x7d\x7d" err1)), w4)
          | (none, w4) => (.ret (keyID, password, none), w4)

/-- The function `updateRootPassword`; `duration` is in nanoseconds. -/
def updateRootPassword {π : Type} (u : UUIDSource π) (c : client π) (appObjID : String)
    (duration : Int) (w : World π) : Outcome (String × String × Option GoError) × World π :=
  match World.GenerateUUID u w with
  | ((_, some err), w1) => (.ret ("", "", some err), w1)
  | ((generated, none), w1) =>
    match markKeyID generated with
    | .panic msg => (.panic msg, w1)
    | .ret keyID =>
      match World.generate c w1 with
      | ((_, some err), w2) => (.ret ("", "", some err), w2)
      | ((password, none), w2) =>
        let now : Int := w2.now
        let cred : PasswordCredential :=
          { StartDate := some now, EndDate := some (now + duration),
            KeyID := some keyID, Value := some password }
        let creds : List PasswordCredential := [] ++ [cred]
        match World.UpdateApplicationPasswordCredentials c.provider appObjID creds w2 with
        | (some err, w3) =>
          (.ret ("", "", some (GoError.Wrapf "error updating credentials: \x7b\x7berr\x7d\x7d" err)), w3)
        | (none, w3) => (.ret (keyID, password, none), w3)

/-- The loop of `deleteAppPassword` over `i := range curCreds`: `todo` holds the entries from index
`i` on. At the first entry whose KeyID equals `keyID` the last entry is copied to index `i`, the
list loses its last entry, and the loop ends with `found = true`. -/
def deleteAppPassword.scan (keyID : String) (curCreds : List PasswordCredential) :
    List PasswordCredential → Nat → List PasswordCredential × Bool
  | [], _ => (curCreds, false)
  | cred :: todo, i =>
    if to.String cred.KeyID = keyID then
      ((curCreds.set i (curCreds.getLastD cred)).dropLast, true)
    else deleteAppPassword.scan keyID curCreds todo (i + 1)

/-- The function `deleteAppPassword`. -/
def deleteAppPassword {π : Type} (c : client π) (appObjID keyID : String) (w : World π) :
    Outcome (Option GoError) × World π :=
  -- Load current credentials
  match World.ListApplicationPasswordCredentials c.provider appObjID w with
  | ((_, some err), w1) =>
    (.ret (some (GoError.Wrapf "error fetching credentials: \x7b\x7berr\x7d\x7d" err)), w1)
  | ((none, none), w1) => (.panic "invalid memory address or nil pointer dereference", w1)
  | ((some curCreds, none), w1) =>
    -- Remove credential
    match deleteAppPassword.scan keyID curCreds curCreds 0 with
    | (_, false) => (.ret none, w1)
    | (remaining, true) =>
      -- Save new credentials list
      match World.UpdateApplicationPasswordCredentials c.provider appObjID remaining w1 with
      | (some err, w2) =>
        (.ret (some (GoError.Wrapf "error updating credentials: \x7b\x7berr\x7d\x7d" err)), w2)
      | (none, w2) => (.ret none, w2)

/-! ## Contexts, timers and `retry` -/

/-- The constant `time.Millisecond`, in nanoseconds. -/
def Millisecond : Nat := 1000000

/-- The constant `time.Second`, in nanoseconds. -/
def Second : Nat := 1000000000

/-- The constant `retryTimeout`. -/
def retryTimeout : Nat := 80 * Second

/-- A `context.Context`, by what `retry` can observe of it. -/
structure Context where
  /-- The deadline reported by `ctx.Deadline()`; `none` when the context has no deadline. -/
  deadline : Option Nat
  /-- The instant at which the caller cancels the context; `none` when that never happens. -/
  cancelAt : Option Nat
  deriving DecidableEq, Repr

/-- The instant from which the channel `ctx.Done()` is closed; `none` when it never is. -/
def Context.doneAt (ctx : Context) : Option Nat :=
  match ctx.deadline, ctx.cancelAt with
  | none, none => none
  | some d, none => some d
  | none, some c => some c
  | some d, some c => some (min d c)

/-- The value of `ctx.Err()` once the context is done. -/
def Context.Err (ctx : Context) : GoError :=
  match ctx.deadline, ctx.cancelAt with
  | some d, some c =>
    if c < d then GoError.New "context canceled" else GoError.New "context deadline exceeded"
  | none, some _ => GoError.New "context canceled"
  | _, none => GoError.New "context deadline exceeded"

/-- The function `context.WithTimeout(ctx, timeout)` called at the instant `now`: the deadline of
the child is `now + timeout`, or the deadline of the parent when that one is earlier. -/
def context.WithTimeout (ctx : Context) (timeout now : Nat) : Context :=
  match ctx.deadline with
  | none => { ctx with deadline := some (now + timeout) }
  | some d => { ctx with deadline := some (min d (now + timeout)) }

/-- A `time.Timer` as the runtime of this code implements it (timer channels with a buffer of
one, Go before 1.23): when the timer fires, the runtime puts a tick in the channel `C`, and
`Reset` re-arms the timer without touching a tick that is already in the channel. This is why
the documentation of `Reset` asks for a stopped or expired timer with a drained channel. -/
structure Timer where
  /-- A tick is waiting in the channel. -/
  C : Bool
  /-- The instant at which the armed timer fires; `none` when it is not armed. -/
  fireAt : Option Nat
  deriving DecidableEq, Repr

/-- The function `time.NewTimer(d)` called at the instant `now`. -/
def time.NewTimer (d now : Nat) : Timer :=
  { C := false, fireAt := some (now + d) }

/-- The timer as it stands at the instant `now`: an armed timer whose instant has come has fired
and left its tick in the channel. -/
def Timer.settle (t : Timer) (now : Nat) : Timer :=
  match t.fireAt with
  | some a => if a ≤ now then { C := true, fireAt := none } else t
  | none => t

/-- The method `Reset(d)` called at the instant `now`. -/
def Timer.Reset (t : Timer) (d now : Nat) : Timer :=
  { C := (t.settle now).C, fireAt := some (now + d) }

/-- The first instant, not before `now`, at which a receive from the channel `C` can proceed;
`none` when it never can. -/
def Timer.tickAt (t : Timer) (now : Nat) : Option Nat :=
  if (t.settle now).C then some now else (t.settle now).fireAt

/-- The timer after a receive from `C` that proceeds at the instant `at_`. -/
def Timer.receive (t : Timer) (at_ : Nat) : Timer :=
  { C := false, fireAt := (t.settle at_).fireAt }

/-- The first instant, not before `now`, at which a receive from `ctx.Done()` can proceed. -/
def Context.readyAt (ctx : Context) (now : Nat) : Option Nat :=
  ctx.doneAt.map (max now)

/-- The case a `select` statement takes, and the instant at which it takes it. -/
inductive Selected where
  /-- The case `<-delayTimer.C`. -/
  | tick (at_ : Nat)
  /-- The case `<-ctx.Done()`. -/
  | done (at_ : Nat)
  /-- Neither case can ever proceed: the statement blocks for ever. -/
  | never
  deriving DecidableEq, Repr

/-- The `select` statement of `retry`: the case that can proceed first is taken; when both can
proceed at the same instant the runtime chooses, and `timerFirst` is its choice. -/
def retry.select (timerFirst : Bool) (tickAt doneAt : Option Nat) : Selected :=
  match tickAt, doneAt with
  | none, none => .never
  | some t, none => .tick t
  | none, some d => .done d
  | some t, some d =>
    if t < d then .tick t
    else if d < t then .done d
    else if timerFirst then .tick t else .done d

/-- What the runtime decides for `retry`: the numbers that `rng.Intn` returns and the choices of
`select`. -/
structure Runtime where
  /-- The value of the call number `draw` (from 0) of `rng.Intn(n)` on a generator created from `seed`. -/
  Intn : (seed draw n : Nat) → Nat
  /-- The contract of `Intn`: the result is in the half-open interval from 0 to `n`. -/
  Intn_lt : ∀ seed draw n, 0 < n → Intn seed draw n < n
  /-- The choice of the `select` statement number `k` (from 0) when both cases can proceed. -/
  timerFirst : Nat → Bool

/-- What a run of `retry` did, for the statement of properties: the number of invocations of the
operation, and the time spent in each `select` statement, in nanoseconds, oldest first. -/
structure RetryRun where
  invocations : Nat
  waits : List Nat
  deriving DecidableEq, Repr

/-- The `for` loop of `retry`. `draws` is the number of earlier iterations, `fuel` bounds the
number of iterations; the result is `none` when there is none within that bound. The operation
returns the triple (result, done, err), a nil interface value being `none`. -/
def retry.loop {π α : Type} (rt : Runtime) (seed : Nat) (ctx : Context)
    (f : World π → (Option α × Bool × Option GoError) × World π) :
    (fuel draws : Nat) → Timer → RetryRun → World π →
      Option ((Option α × Option GoError) × RetryRun × World π)
  | 0, _, _, _, _ => none
  | fuel + 1, draws, delayTimer, run, w =>
    match f w with
    | ((result, true, err), w1) =>
      some ((result, err), { run with invocations := run.invocations + 1 }, w1)
    | ((_, false, _), w1) =>
      let delay := (2000 + rt.Intn seed draws 6000) * Millisecond
      let timer1 := delayTimer.Reset delay w1.now
      match retry.select (rt.timerFirst draws) (timer1.tickAt w1.now) (ctx.readyAt w1.now) with
      | .tick at_ =>
        -- Retry loop
        retry.loop rt seed ctx f fuel (draws + 1) (timer1.receive at_)
          { invocations := run.invocations + 1, waits := run.waits ++ [at_ - w1.now] }
          { w1 with now := at_ }
      | .done at_ =>
        some ((none, some (GoError.Errorf "retry failed: " ctx.Err)),
          { invocations := run.invocations + 1, waits := run.waits ++ [at_ - w1.now] },
          { w1 with now := at_ })
      | .never => none

/-- A bound on the number of iterations of the loop of `retry` entered at the instant `now`:
after the first wait every wait that ends with a tick lasts two seconds or more, and none ends
with a tick after the context is done. -/
def retry.fuel (ctx : Context) (now : Nat) : Nat :=
  match ctx.doneAt with
  | some d => (d - now) / (2000 * Millisecond) + 2
  | none => 0

/-- The function `retry`, entered at the instant `w.now`. -/
def retry {π α : Type} (rt : Runtime) (ctx : Context)
    (f : World π → (Option α × Bool × Option GoError) × World π) (w : World π) :
    Option ((Option α × Option GoError) × RetryRun × World π) :=
  let delayTimer := time.NewTimer 0 w.now
  let ctx1 := if ctx.deadline = none then context.WithTimeout ctx retryTimeout w.now else ctx
  -- rng := rand.New(rand.NewSource(time.Now().UnixNano()))
  let seed := w.now
  retry.loop rt seed ctx1 f (retry.fuel ctx1 w.now) 0 delayTimer { invocations := 0, waits := [] } w

/-! ## `assignRoles` -/

/-- The closure that `assignRoles` passes to `retry` for one role. -/
def assignRoles.attempt {π : Type} (c : client π) (role : AzureRole) (assignmentID : String)
    (principalID : Option String) (w : World π) :
    (Option String × Bool × Option GoError) × World π :=
  match World.CreateRoleAssignment c.provider role.Scope assignmentID role.RoleID principalID w with
  | ((ra, err), w1) =>
    -- Propagation delays within Azure can cause this error occasionally, so don't quit on it.
    match err with
    | some e =>
      if strings.Contains e.Error "PrincipalNotFound" then ((none, false, none), w1)
      else ((some (to.String ra.ID), true, some e), w1)
    | none => ((some (to.String ra.ID), true, none), w1)

/-- The loop of `assignRoles` over the roles, with the IDs collected so far. The result is the
pair (ids, err) of the Go function, a nil slice being the empty list; `principalID` is
`sp.ObjectID`. -/
def assignRoles.loop {π : Type} (rt : Runtime) (u : UUIDSource π) (c : client π) (ctx : Context)
    (principalID : Option String) :
    List AzureRole → List String → World π →
      Option (Outcome (List String × Option GoError) × World π)
  | [], ids, w => some (.ret (ids, none), w)
  | role :: rest, ids, w =>
    match World.GenerateUUID u w with
    | ((_, some err), w1) => some (.ret ([], some err), w1)
    | ((assignmentID, none), w1) =>
      match retry rt ctx (assignRoles.attempt c role assignmentID principalID) w1 with
      | none => none
      | some ((_, some err), _, w2) =>
        some (.ret ([], some (GoError.Wrapf "error while assigning roles: \x7b\x7berr\x7d\x7d" err)), w2)
      | some ((none, none), _, w2) =>
        some (.panic "interface conversion: interface is nil, not string", w2)
      | some ((some id, none), _, w2) =>
        assignRoles.loop rt u c ctx principalID rest (ids ++ [id]) w2

/-- The function `assignRoles`; `principalID` is `sp.ObjectID`. The result is `none` when a call
of `retry` has no result. -/
def assignRoles {π : Type} (rt : Runtime) (u : UUIDSource π) (c : client π) (ctx : Context)
    (principalID : Option String) (roles : List AzureRole) (w : World π) :
    Option (Outcome (List String × Option GoError) × World π) :=
  assignRoles.loop rt u c ctx principalID roles [] w

/-! ## Configuration (`plugin/path_config.go`) -/

/-- The constant `configPath`. -/
def configPath : String := "config"

/-- The type `azureConfig`; the two durations are `time.Duration` values, in nanoseconds. -/
structure azureConfig where
  SubscriptionID : String
  TenantID : String
  ClientID : String
  ClientSecret : String
  DefaultTTL : Int
  MaxTTL : Int
  Resource : String
  Environment : String
  deriving DecidableEq, Repr

/-- The value of `new(azureConfig)`. -/
def azureConfig.new : azureConfig :=
  { SubscriptionID := "", TenantID := "", ClientID := "", ClientSecret := "",
    DefaultTTL := 0, MaxTTL := 0, Resource := "", Environment := "" }

/-- The value that 64-bit signed arithmetic keeps of an integer. -/
def wrapInt64 (x : Int) : Int :=
  (x + 2 ^ 63) % 2 ^ 64 - 2 ^ 63

/-- The expression `time.Duration(raw.(int)) * time.Second`. -/
def secondsToDuration (raw : Int) : Int :=
  wrapInt64 (raw * 1000000000)

/-- The request fields as `data.GetOk` reports them: `some v` when the second result is true.
The two TTL fields are Go `int` values, in seconds. -/
structure FieldData where
  subscription_id : Option String
  tenant_id : Option String
  environment : Option String
  resource : Option String
  client_id : Option String
  client_secret : Option String
  ttl : Option Int
  max_ttl : Option Int
  deriving DecidableEq, Repr

/-- The type `logical.StorageEntry`. -/
structure StorageEntry where
  Key : String
  Value : String
  deriving DecidableEq, Repr

/-- What the backend uses from outside the embedded file: the storage of the request (a machine
over `σ`), the JSON coding of storage entries, and two library functions. -/
structure Backend (σ : Type) where
  /-- The method `s.Get(ctx, key)`. -/
  Get : String → σ → Option StorageEntry × Option GoError
  /-- The method `s.Put(ctx, entry)`. -/
  Put : StorageEntry → σ → Option GoError × σ
  /-- The method `entry.DecodeJSON(config)`: the record after decoding into it, and the error. -/
  DecodeJSON : StorageEntry → azureConfig → azureConfig × Option GoError
  /-- The function `logical.StorageEntryJSON(key, cfg)`. -/
  StorageEntryJSON : String → azureConfig → StorageEntry × Option GoError
  /-- The error of the function `uuid.ParseUUID(s)`. -/
  ParseUUID : String → Option GoError
  /-- The error of the function `azure.EnvironmentFromName(name)`. -/
  EnvironmentFromName : String → Option GoError

/-- The state of the backend: the storage, the cached client, and for the statement of
properties the entries passed to `Put` and the number of calls of `reset`. -/
structure BackendState (σ κ : Type) where
  storage : σ
  client : Option κ
  puts : List StorageEntry
  resets : Nat

/-- Modelled from the spec: the method `reset` of the backend, declared outside the embedded
files; it "invalidates any cached client". -/
def BackendState.reset {σ κ : Type} (st : BackendState σ κ) : BackendState σ κ :=
  { st with client := none, resets := st.resets + 1 }

/-- A value of a response map. -/
inductive Value where
  | str (s : String)
  | int (n : Int)
  deriving DecidableEq, Repr

/-- The type `logical.Response`, by the way it is built in the source. -/
inductive Response where
  /-- The value of `logical.ErrorResponse(text)`. -/
  | ErrorResponse (text : String)
  /-- A response with the map `Data`, its entries in the order of the source. -/
  | Data (data : List (String × Value))
  deriving DecidableEq, Repr

/-- The method `Error()` of an aggregate, with the default format of the library. -/
def multierror.Error (m : MultiError) : String :=
  match m.Errors with
  | [e] => "1 error occurred:\n\t* " ++ e.Error ++ "\n\n"
  | es =>
    toString es.length ++ " errors occurred:\n\t" ++
      "\n\t".intercalate (es.map (fun e => "* " ++ e.Error)) ++ "\n\n"

/-- The function `getConfig`. -/
def getConfig {σ : Type} (b : Backend σ) (s : σ) : Option azureConfig × Option GoError :=
  let config := azureConfig.new
  match b.Get configPath s with
  | (_, some err) => (none, some err)
  | (none, none) => (some config, none)
  | (some entry, none) =>
    match b.DecodeJSON entry config with
    | (_, some err) => (none, some err)
    | (decoded, none) => (some decoded, none)

/-- The function `saveConfig`: the error of `Put` is assigned and not returned. -/
def saveConfig {σ κ : Type} (b : Backend σ) (cfg : azureConfig) (st : BackendState σ κ) :
    Option GoError × BackendState σ κ :=
  match b.StorageEntryJSON configPath cfg with
  | (_, some err) => (some err, st)
  | (entry, none) =>
    let r := b.Put entry st.storage
    (none, { st with storage := r.2, puts := st.puts ++ [entry] })

/-- The part of `pathConfigWrite` that merges the request fields into the configuration and
collects the format errors. -/
def pathConfigWrite.fields {σ : Type} (b : Backend σ) (config : azureConfig) (data : FieldData)
    (merr : Option MultiError) : azureConfig × Option MultiError :=
  let r1 : azureConfig × Option MultiError :=
    match data.subscription_id with
    | some s =>
      match b.ParseUUID s with
      | some err =>
        (config, multierror.Append merr
          (GoError.Wrapf "subscription_id format error: \x7b\x7berr\x7d\x7d" err))
      | none => ({ config with SubscriptionID := s }, merr)
    | none => (config, merr)
  let r2 : azureConfig × Option MultiError :=
    match data.tenant_id with
    | some t =>
      match b.ParseUUID t with
      | some err =>
        (r1.1, multierror.Append r1.2 (GoError.Wrapf "tenant_id format error: \x7b\x7berr\x7d\x7d" err))
      | none => ({ r1.1 with TenantID := t }, r1.2)
    | none => r1
  let r3 : azureConfig × Option MultiError :=
    match data.environment with
    | some e =>
      match b.EnvironmentFromName e with
      | some err => (r2.1, multierror.Append r2.2 err)
      | none => ({ r2.1 with Environment := e }, r2.2)
    | none => r2
  let c4 : azureConfig :=
    match data.resource with
    | some v => { r3.1 with Resource := v }
    | none => r3.1
  let c5 : azureConfig :=
    match data.client_id with
    | some v => { c4 with ClientID := v }
    | none => c4
  let c6 : azureConfig :=
    match data.client_secret with
    | some v => { c5 with ClientSecret := v }
    | none => c5
  let c7 : azureConfig :=
    match data.ttl with
    | some ttlRaw => { c6 with DefaultTTL := secondsToDuration ttlRaw }
    | none => c6
  let c8 : azureConfig :=
    match data.max_ttl with
    | some maxTTLRaw => { c7 with MaxTTL := secondsToDuration maxTTLRaw }
    | none => c7
  (c8, r3.2)

/-- The part of `pathConfigWrite` that validates the ttl constraints. -/
def pathConfigWrite.validate (config : azureConfig) (merr : Option MultiError) :
    Option MultiError :=
  let m1 := if config.DefaultTTL < 0 then multierror.Append merr (GoError.New "ttl < 0") else merr
  let m2 := if config.MaxTTL < 0 then multierror.Append m1 (GoError.New "max_ttl < 0") else m1
  if config.DefaultTTL > config.MaxTTL ∧ config.MaxTTL ≠ 0 then
    multierror.Append m2 (GoError.New "ttl > max_ttl")
  else m2

/-- The function `pathConfigWrite`; the result is the pair (response, error) of the Go function. -/
def pathConfigWrite {σ κ : Type} (b : Backend σ) (data : FieldData) (st : BackendState σ κ) :
    (Option Response × Option GoError) × BackendState σ κ :=
  match getConfig b st.storage with
  | (_, some err) => ((none, some err), st)
  | (loaded, none) =>
    let config : azureConfig :=
      match loaded with
      | some cfg => cfg
      | none => azureConfig.new
    let r := pathConfigWrite.fields b config data none
    -- validate ttl constraints
    let merr := pathConfigWrite.validate r.1 r.2
    match multierror.ErrorOrNil merr with
    | some m => ((some (Response.ErrorResponse (multierror.Error m)), none), st)
    | none =>
      match saveConfig b r.1 st with
      | (none, st1) => ((none, none), st1.reset)
      | (some err, st1) => ((none, some err), st1)

/-- The function `pathConfigRead`; a duration is divided by `time.Second` with the quotient
rounded toward zero. -/
def pathConfigRead {σ : Type} (b : Backend σ) (s : σ) : Option Response × Option GoError :=
  match getConfig b s with
  | (_, some err) => (none, some err)
  | (none, none) => (none, none)
  | (some config, none) =>
    (some (Response.Data
      [("subscription_id", Value.str config.SubscriptionID),
       ("tenant_id", Value.str config.TenantID),
       ("environment", Value.str config.Environment),
       ("client_id", Value.str config.ClientID),
       ("ttl", Value.int (Int.tdiv config.DefaultTTL 1000000000)),
       ("max_ttl", Value.int (Int.tdiv config.MaxTTL 1000000000))]), none)

/-! ## Notions used to state the properties -/

/-- The errors held by an aggregate, none for nil. -/
def multierror.errorsOf (merr : Option MultiError) : List GoError :=
  match merr with
  | none => []
  | some m => m.Errors

/-- The wrapped error that `unassignRoles` records for one answer of the provider. -/
def unassignRoles.wrap (err : Option GoError) : Option GoError :=
  err.map (GoError.Wrapf "error unassigning role: \x7b\x7berr\x7d\x7d")

/-! ## A provider that keeps its data in memory -/

/-- An outside world that keeps the credential list of the application in memory, next to the
state `ε` of the entropy behind the UUIDs and the passwords. -/
structure Store (ε : Type) where
  creds : List PasswordCredential
  entropy : ε

/-- The provider of a `Store`: listing returns the stored credential list, updating replaces it,
no call fails; a created role assignment gets its name as ID. -/
def Store.provider (ε : Type) : AzureProvider (Store ε) where
  ListApplicationPasswordCredentials := fun _ s => ((some s.creds, none), s)
  UpdateApplicationPasswordCredentials := fun _ creds s => (none, { s with creds := creds })
  DeleteApplication := fun _ s => ((⟨some 204⟩, none), s)
  CreateRoleAssignment := fun _ assignmentID _ _ s => ((⟨some assignmentID⟩, none), s)
  DeleteRoleAssignmentByID := fun _ s => (none, s)

/-- The client of a `Store` whose password generator is `gen`. -/
def Store.client {ε : Type} (gen : ε → (String × Option GoError) × ε) : client (Store ε) where
  provider := Store.provider ε
  passwords_generate := fun s => ((gen s.entropy).1, { s with entropy := (gen s.entropy).2 })

/-- The UUID source of a `Store` that generates with `gen`. -/
def Store.uuid {ε : Type} (gen : ε → (String × Option GoError) × ε) : UUIDSource (Store ε) where
  GenerateUUID := fun s => ((gen s.entropy).1, { s with entropy := (gen s.entropy).2 })

/-- An entropy that hands out the strings of a list one after the other, and fails on the empty
list. -/
def popString (l : List String) : (String × Option GoError) × List String :=
  match l with
  | [] => (("", some (GoError.New "out of entropy")), [])
  | x :: rest => ((x, none), rest)

/-- A world at the instant 1000 whose application holds two credentials; its entropy will hand
out one UUID, then one password. -/
def exampleWorld : World (Store (List String)) :=
  { ext := { creds := [⟨none, none, some "ffffff00-0000-0000-0000-000000000001", some "old1"⟩,
                       ⟨none, none, some "ffffff00-0000-0000-0000-000000000002", some "old2"⟩],
             entropy := ["0a1b2c3d-1111-2222-3333-444444444444", "s3cret"] },
    now := 1000, log := [] }

/-- The function `addAppPassword` called `n` times in a row: the outcomes of the calls, oldest
first, and the world after the last call. -/
def addAppPassword.times {π : Type} (u : UUIDSource π) (c : client π) (appObjID : String)
    (duration : Int) : Nat → World π → List (Outcome (String × String × Option GoError)) × World π
  | 0, w => ([], w)
  | n + 1, w =>
    let r := addAppPassword u c appObjID duration w
    let rest := addAppPassword.times u c appObjID duration n r.2
    (r.1 :: rest.1, rest.2)

/-- The outcome of a call that returns the key ID and the password of `kp` without error. -/
def addAppPassword.success (kp : String × String) : Outcome (String × String × Option GoError) :=
  Outcome.ret (kp.1, kp.2, none)

/-- The example world with entropy for two calls of `addAppPassword`. -/
def exampleWorld2 : World (Store (List String)) :=
  { exampleWorld with
    ext := { exampleWorld.ext with
      entropy := ["0a1b2c3d-1111-2222-3333-444444444444", "s3cret",
                  "99999999-5555-6666-7777-888888888888", "hunter2"] } }

/-- The test of `deleteAppPassword` on an entry: its KeyID equals `keyID`. -/
def hasKeyID (keyID : String) (cred : PasswordCredential) : Bool :=
  decide (to.String cred.KeyID = keyID)

/-- A world whose application holds three credentials, the first two with the same KeyID. -/
def duplicateWorld : World (Store (List String)) :=
  { ext := { creds := [⟨none, none, some "ffffff00-0000-0000-0000-000000000001", some "first"⟩,
                       ⟨none, none, some "ffffff00-0000-0000-0000-000000000001", some "second"⟩,
                       ⟨none, none, some "ffffff00-0000-0000-0000-000000000002", some "third"⟩],
             entropy := [] },
    now := 1000, log := [] }

/-- The ttl of a write as the specification names it: the supplied value where one is supplied
(a number of seconds, here in nanoseconds like the stored durations) and the stored value
otherwise. -/
def suppliedTTL (stored : azureConfig) (data : FieldData) : Int :=
  match data.ttl with
  | some raw => raw * 1000000000
  | none => stored.DefaultTTL

/-- The max_ttl of a write as the specification names it. -/
def suppliedMaxTTL (stored : azureConfig) (data : FieldData) : Int :=
  match data.max_ttl with
  | some raw => raw * 1000000000
  | none => stored.MaxTTL

/-- The supplied ttl and max_ttl of a write are numbers of seconds that a `time.Duration` can
hold: at most 9223372036 in magnitude. -/
def ttlsFit (data : FieldData) : Bool :=
  (match data.ttl with
   | some raw => decide (-9223372036 ≤ raw ∧ raw ≤ 9223372036)
   | none => true) &&
  (match data.max_ttl with
   | some raw => decide (-9223372036 ≤ raw ∧ raw ≤ 9223372036)
   | none => true)

/-- The errors that the ttl constraints ask for, in the order of the checks. -/
def ttlErrors (ttl maxTTL : Int) : List GoError :=
  (if ttl < 0 then [GoError.New "ttl < 0"] else []) ++
  (if maxTTL < 0 then [GoError.New "max_ttl < 0"] else []) ++
  (if ttl > maxTTL ∧ maxTTL ≠ 0 then [GoError.New "ttl > max_ttl"] else [])

/-- A stored configuration record with every field set. -/
def exampleConfig : azureConfig :=
  { SubscriptionID := "11111111-2222-3333-4444-555555555555",
    TenantID := "66666666-7777-8888-9999-000000000000",
    ClientID := "client", ClientSecret := "secret",
    DefaultTTL := 3600000000000, MaxTTL := 7200000000000,
    Resource := "https://management.azure.com/", Environment := "AZUREPUBLICCLOUD" }

/-- The storage entry that holds `exampleConfig`. -/
def exampleEntry : StorageEntry :=
  { Key := "config", Value := "exampleConfig as JSON" }

/-- A backend over a storage that holds at most one entry. Its JSON coding knows one document,
the one of `exampleConfig`; both library functions accept every string. -/
def exampleBackend : Backend (Option StorageEntry) where
  Get := fun key s =>
    match s with
    | some entry => if entry.Key = key then (some entry, none) else (none, none)
    | none => (none, none)
  Put := fun entry _ => (none, some entry)
  DecodeJSON := fun entry config =>
    if entry.Value = exampleEntry.Value then (exampleConfig, none)
    else (config, some (GoError.New "invalid character"))
  StorageEntryJSON := fun key cfg =>
    if cfg = exampleConfig then ({ Key := key, Value := exampleEntry.Value }, none)
    else ({ Key := key, Value := "" }, some (GoError.New "json: unsupported value"))
  ParseUUID := fun _ => none
  EnvironmentFromName := fun _ => none

/-- A backend state that holds `exampleConfig` and a cached client. -/
def exampleState : BackendState (Option StorageEntry) Unit :=
  { storage := some exampleEntry, client := some (), puts := [], resets := 0 }

/-- A write request that supplies only a ttl, of 9223372037 seconds: one second more than a
`time.Duration` can hold. -/
def overflowingTTL : FieldData :=
  { subscription_id := none, tenant_id := none, environment := none, resource := none,
    client_id := none, client_secret := none, ttl := some 9223372037, max_ttl := none }

/-- A write request that supplies only the two TTL fields, both negative. -/
def negativeTTLs : FieldData :=
  { subscription_id := none, tenant_id := none, environment := none, resource := none,
    client_id := none, client_secret := none, ttl := some (-1), max_ttl := some (-5) }

/-! ## Operations and runtimes for `retry` -/

/-- A runtime whose generator always returns `r` (reduced below the bound) and whose `select`
always makes the choice `timerFirst`. -/
def constRuntime (r : Nat) (timerFirst : Bool) : Runtime where
  Intn := fun _ _ n => r % n
  Intn_lt := fun _ _ _ h => Nat.mod_lt _ h
  timerFirst := fun _ => timerFirst

/-- An operation that reports done=false on its first `k` invocations and done=true, with the
result "ok", from invocation `k + 1` on; the outside state counts the invocations. -/
def doneAfter (k : Nat) (w : World Nat) : (Option String × Bool × Option GoError) × World Nat :=
  if w.ext < k then ((none, false, none), { w with ext := w.ext + 1 })
  else ((some "ok", true, none), { w with ext := w.ext + 1 })

/-- An operation that never reports done; the outside state counts the invocations. -/
def neverDone (w : World Nat) : (Option String × Bool × Option GoError) × World Nat :=
  ((none, false, none), { w with ext := w.ext + 1 })

/-! ## Notions used to state the properties of `assignRoles` -/

/-- The log entry is a call of `CreateRoleAssignment` for the principal `principalID`. -/
def Call.isCreateFor (principalID : Option String) : Call → Bool
  | .CreateRoleAssignment _ _ _ p _ _ => decide (p = principalID)
  | _ => false

/-- The log entry is a call of `CreateRoleAssignment` whose answer is an error with a text that
contains "PrincipalNotFound". -/
def Call.transient : Call → Bool
  | .CreateRoleAssignment _ _ _ _ _ (some e) => strings.Contains e.Error "PrincipalNotFound"
  | _ => false

/-- The error of a call of `CreateRoleAssignment` whose answer is an error of any other text. -/
def Call.terminal : Call → Option GoError
  | .CreateRoleAssignment _ _ _ _ _ (some e) =>
    if strings.Contains e.Error "PrincipalNotFound" then none else some e
  | _ => none

/-- The assignment ID that the provider returned in a call of `CreateRoleAssignment` answered
without error. -/
def Call.createdID : Call → Option String
  | .CreateRoleAssignment _ _ _ _ ra none => some (to.String ra.ID)
  | _ => none

/-- The role requested in a call of `CreateRoleAssignment` answered without error. -/
def Call.createdFor : Call → Option AzureRole
  | .CreateRoleAssignment scope _ roleID _ _ none => some { RoleID := roleID, Scope := scope }
  | _ => none

/-- Two log entries are calls of `CreateRoleAssignment` with the same scope, assignment ID, role
definition and principal. -/
def Call.sameRequest : Call → Call → Bool
  | .CreateRoleAssignment s a r p _ _, .CreateRoleAssignment s1 a1 r1 p1 _ _ =>
    decide (s = s1 ∧ a = a1 ∧ r = r1 ∧ p = p1)
  | _, _ => false

/-- The role requested in a call of `CreateRoleAssignment`. -/
def Call.requested : Call → Option AzureRole
  | .CreateRoleAssignment scope _ roleID _ _ _ => some { RoleID := roleID, Scope := scope }
  | _ => none

/-- The role requested in a call of `CreateRoleAssignment` answered without error, with the
assignment ID that the provider returned for it. -/
def Call.created : Call → Option (AzureRole × String)
  | .CreateRoleAssignment scope _ roleID _ ra none =>
    some ({ RoleID := roleID, Scope := scope }, to.String ra.ID)
  | _ => none

/-- The log entry is a call of `CreateRoleAssignment` that holds the answer which the provider `p`
gives to its request in some state. -/
def Call.answeredBy {π : Type} (p : AzureProvider π) : Call → Prop
  | .CreateRoleAssignment scope aid roleID pid ra err =>
    ∃ x, (p.CreateRoleAssignment scope aid roleID pid x).1 = (ra, err)
  | _ => False

/-- The log entry is a call of `CreateRoleAssignment` whose assignment ID is one that
`uuid.GenerateUUID` has returned, without error, in some state. -/
def Call.generatedBy {π : Type} (u : UUIDSource π) : Call → Prop
  | .CreateRoleAssignment _ aid _ _ _ _ => ∃ x, (u.GenerateUUID x).1 = (aid, none)
  | _ => False

/-- The context that `retry` waits on when it is entered at the instant `entry` with the context
`ctx`: the context `ctx` itself when it has a deadline, and otherwise its child with the
deadline `entry + retryTimeout`. -/
def retryContext (ctx : Context) (entry : Nat) : Context :=
  if ctx.deadline = none then context.WithTimeout ctx retryTimeout entry else ctx

/-! ## A provider whose directory lags -/

/-- A provider behind a directory that lags: its state is the number of calls of
`CreateRoleAssignment` that it still answers with the error of a principal that is not visible
yet; after those it creates the assignment and returns an ID made of the scope and the
assignment ID. -/
def laggingProvider : AzureProvider Nat where
  ListApplicationPasswordCredentials := fun _ x => ((none, none), x)
  UpdateApplicationPasswordCredentials := fun _ _ x => (none, x)
  DeleteApplication := fun _ x => (({ StatusCode := none }, none), x)
  CreateRoleAssignment := fun scope aid _ _ x =>
    match x with
    | 0 => (({ ID := some (scope ++ "/" ++ aid) }, none), 0)
    | k + 1 =>
      (({ ID := none }, some (GoError.New "PrincipalNotFound: principal is not in the directory")), k)
  DeleteRoleAssignmentByID := fun _ x => (none, x)

/-- A client of the lagging provider. -/
def laggingClient : client Nat where
  provider := laggingProvider
  passwords_generate := fun x => (("password", none), x)

/-- A source of UUIDs that always returns the same one. -/
def fixedUUID : UUIDSource Nat where
  GenerateUUID := fun x => (("0f0e0d0c", none), x)

/-- Two roles to assign. -/
def exampleRoles : List AzureRole :=
  [{ RoleID := "reader", Scope := "/sub/1" }, { RoleID := "owner", Scope := "/sub/2" }]

/-- A context without deadline that is never cancelled. -/
def background : Context :=
  { deadline := none, cancelAt := none }

/-- A world in which the lagging provider has two transient answers to give. -/
def laggingWorld : World Nat :=
  { ext := 2, now := 1000, log := [] }

/-! ## `getClientSettings` -/

/-- The type `clientSettings`; the types of the fields `Environment` and `PluginEnv` are library
types, taken as the parameters `ε` and `ρ`. -/
structure clientSettings (ε ρ : Type) where
  SubscriptionID : String
  TenantID : String
  ClientID : String
  ClientSecret : String
  Environment : ε
  PluginEnv : ρ

/-- What `getClientSettings` uses from outside the embedded file. -/
structure SettingsHost (ε ρ : Type) where
  /-- The function `os.Getenv(key)`. -/
  Getenv : String → String
  /-- The function `azure.EnvironmentFromName(name)`: the pair (environment, error). -/
  EnvironmentFromName : String → ε × Option GoError
  /-- The call `b.System().PluginEnv(ctx)`: the pair (plugin environment, error). -/
  PluginEnv : ρ × Option GoError

/-- The closure `firstAvailable` of `getClientSettings`: the first non-empty string of `opts`, the
empty string when there is none. -/
def firstAvailable : List String → String
  | [] => ""
  | s :: opts => if s ≠ "" then s else firstAvailable opts

/-- The function `getClientSettings`; the result is the pair (settings, error) of the Go
function. -/
def getClientSettings {ε ρ : Type} (h : SettingsHost ε ρ) (config : azureConfig) :
    Option (clientSettings ε ρ) × Option GoError :=
  let ClientID := firstAvailable [h.Getenv "AZURE_CLIENT_ID", config.ClientID]
  let ClientSecret := firstAvailable [h.Getenv "AZURE_CLIENT_SECRET", config.ClientSecret]
  let SubscriptionID := firstAvailable [h.Getenv "AZURE_SUBSCRIPTION_ID", config.SubscriptionID]
  if SubscriptionID = "" then (none, some (GoError.New "subscription_id is required"))
  else
    let TenantID := firstAvailable [h.Getenv "AZURE_TENANT_ID", config.TenantID]
    if TenantID = "" then (none, some (GoError.New "tenant_id is required"))
    else
      let envName :=
        firstAvailable [h.Getenv "AZURE_ENVIRONMENT", config.Environment, "AZUREPUBLICCLOUD"]
      match h.EnvironmentFromName envName with
      | (_, some err) => (none, some err)
      | (env, none) =>
        match h.PluginEnv with
        | (_, some err) =>
          (none, some (GoError.Wrapf "error loading plugin environment: \x7b\x7berr\x7d\x7d" err))
        | (pluginEnv, none) =>
          (some { SubscriptionID := SubscriptionID, TenantID := TenantID, ClientID := ClientID,
                  ClientSecret := ClientSecret, Environment := env, PluginEnv := pluginEnv }, none)

/-- The precedence of the settings: the value of the environment variable when it is not empty,
the stored value otherwise. -/
def byPrecedence (envValue stored : String) : String :=
  if envValue = "" then stored else envValue

/-- The precedence of the environment name: the first non-empty of the environment variable, the
stored value and the default "AZUREPUBLICCLOUD". -/
def environmentName (envValue stored : String) : String :=
  if envValue = "" then (if stored = "" then "AZUREPUBLICCLOUD" else stored) else envValue

/-! ## A storage that refuses to write -/

/-- The example backend over a storage whose `Put` fails and writes nothing. -/
def failingBackend : Backend (Option StorageEntry) :=
  { exampleBackend with Put := fun _ s => (some (GoError.New "storage is read-only"), s) }

/-- A write request that supplies no field. -/
def emptyRequest : FieldData :=
  { subscription_id := none, tenant_id := none, environment := none, resource := none,
    client_id := none, client_secret := none, ttl := none, max_ttl := none }

/-! # Properties -/

theorem multierror.errorsOf_Append (merr : Option MultiError) (e : GoError) :
    multierror.errorsOf (multierror.Append merr e) = multierror.errorsOf merr ++ [e] := by
  cases merr <;> rfl

theorem multierror.ErrorOrNil_eq (merr : Option MultiError) :
    multierror.ErrorOrNil merr =
      if multierror.errorsOf merr = [] then none else some ⟨multierror.errorsOf merr⟩ := by
  cases merr with
  | none => rfl
  | some m =>
    simp only [multierror.ErrorOrNil, multierror.errorsOf]

/-! ## `unassignRoles` -/

theorem unassignRoles_loop_spec {π : Type} (c : client π) (roleIDs : List String) :
    ∀ (merr : Option MultiError) (w : World π),
      ∃ errs : List (Option GoError),
        errs.length = roleIDs.length ∧
        (unassignRoles.loop c roleIDs merr w).2.log =
          w.log ++ List.zipWith Call.DeleteRoleAssignmentByID roleIDs errs ∧
        multierror.errorsOf (unassignRoles.loop c roleIDs merr w).1 =
          multierror.errorsOf merr ++ errs.filterMap unassignRoles.wrap := by
  induction roleIDs with
  | nil =>
    intro merr w
    exact ⟨[], rfl, by simp [unassignRoles.loop], by simp [unassignRoles.loop]⟩
  | cons id rest ih =>
    intro merr w
    cases h : (c.provider.DeleteRoleAssignmentByID id w.ext).1 with
    | none =>
      obtain ⟨errs, hlen, hlog, herr⟩ := ih merr
        { w with ext := (c.provider.DeleteRoleAssignmentByID id w.ext).2,
                 log := w.log ++ [Call.DeleteRoleAssignmentByID id none] }
      refine ⟨none :: errs, by simp [hlen], ?_, ?_⟩
      · simp only [unassignRoles.loop, World.DeleteRoleAssignmentByID, h]
        rw [hlog]; simp
      · simp only [unassignRoles.loop, World.DeleteRoleAssignmentByID, h]
        rw [herr]; simp [unassignRoles.wrap]
    | some e =>
      obtain ⟨errs, hlen, hlog, herr⟩ := ih
        (multierror.Append merr (GoError.Wrapf "error unassigning role: \x7b\x7berr\x7d\x7d" e))
        { w with ext := (c.provider.DeleteRoleAssignmentByID id w.ext).2,
                 log := w.log ++ [Call.DeleteRoleAssignmentByID id (some e)] }
      refine ⟨some e :: errs, by simp [hlen], ?_, ?_⟩
      · simp only [unassignRoles.loop, World.DeleteRoleAssignmentByID, h]
        rw [hlog]; simp
      · simp only [unassignRoles.loop, World.DeleteRoleAssignmentByID, h]
        rw [herr, multierror.errorsOf_Append]; simp [unassignRoles.wrap]

/-- C1: for every client, list of IDs and world, `unassignRoles` calls `DeleteRoleAssignmentByID`
exactly once for each ID, in list order, whatever the earlier answers `errs` were; the aggregate
it returns holds exactly one wrapped error per failed deletion, in the same order, and the result
is nil exactly when no deletion failed, which includes the empty list. -/
theorem unassignRoles_best_effort {π : Type} (c : client π) (roleIDs : List String)
    (w : World π) :
    ∃ errs : List (Option GoError),
      errs.length = roleIDs.length ∧
      (unassignRoles c roleIDs w).2.log =
        w.log ++ List.zipWith Call.DeleteRoleAssignmentByID roleIDs errs ∧
      multierror.errorsOf (unassignRoles c roleIDs w).1 = errs.filterMap unassignRoles.wrap ∧
      ((unassignRoles c roleIDs w).1 = none ↔ ∀ e ∈ errs, e = none) ∧
      (unassignRoles c [] w).1 = none := by
  obtain ⟨errs, hlen, hlog, herr⟩ := unassignRoles_loop_spec c roleIDs none w
  have hE : multierror.errorsOf (unassignRoles.loop c roleIDs none w).1 =
      errs.filterMap unassignRoles.wrap := by simpa [multierror.errorsOf] using herr
  have hres : (unassignRoles c roleIDs w).1 =
      if errs.filterMap unassignRoles.wrap = [] then none
      else some ⟨errs.filterMap unassignRoles.wrap⟩ := by
    simp only [unassignRoles, multierror.ErrorOrNil_eq, hE]
  have hnone : errs.filterMap unassignRoles.wrap = [] ↔ ∀ e ∈ errs, e = none := by
    rw [List.filterMap_eq_nil_iff]
    constructor
    · intro h e he
      have := h e he
      cases e with
      | none => rfl
      | some v => simp [unassignRoles.wrap] at this
    · intro h e he
      rw [h e he]; rfl
  refine ⟨errs, hlen, hlog, ?_, ?_, rfl⟩
  · rw [hres]
    split
    · next h => rw [h]; rfl
    · rfl
  · rw [hres, ← hnone]
    by_cases h : errs.filterMap unassignRoles.wrap = [] <;> simp [h]

/-! ## `deleteApp` -/

/-- C8: for every answer of the provider, `deleteApp` returns no error exactly when the provider
reported no error or answered with status 404, and in every other case it returns the error of
the provider itself; the provider is called once. -/
theorem deleteApp_idempotent {π : Type} (c : client π) (appObjectID : String) (w : World π) :
    ((deleteApp c appObjectID w).1 = none ↔
      ((c.provider.DeleteApplication appObjectID w.ext).1.2 = none ∨
        (c.provider.DeleteApplication appObjectID w.ext).1.1.StatusCode = some 404)) ∧
    ((deleteApp c appObjectID w).1 = none ∨
      (deleteApp c appObjectID w).1 = (c.provider.DeleteApplication appObjectID w.ext).1.2) ∧
    (deleteApp c appObjectID w).2.log =
      w.log ++ [Call.DeleteApplication appObjectID
        (c.provider.DeleteApplication appObjectID w.ext).1.1
        (c.provider.DeleteApplication appObjectID w.ext).1.2] := by
  simp only [deleteApp, World.DeleteApplication]
  by_cases h1 : (c.provider.DeleteApplication appObjectID w.ext).1.2 = none
  · simp [h1]
  · by_cases h2 : (c.provider.DeleteApplication appObjectID w.ext).1.1.StatusCode = some 404
    · simp [h1, h2]
    · simp [h1, h2]

/-! ## `updateRootPassword` -/

/-- C7: for every outside world, so for every credential list the application held before, a call
of `updateRootPassword` that returns without error has made exactly one provider call, an update
and no read, and the list it has written has exactly one entry, whose KeyID and Value are the
keyID and the password returned to the caller. -/
theorem updateRootPassword_replaces {π : Type} (u : UUIDSource π) (c : client π)
    (appObjID : String) (duration : Int) (w w1 : World π) (keyID password : String)
    (h : updateRootPassword u c appObjID duration w = (Outcome.ret (keyID, password, none), w1)) :
    w1.log = w.log ++ [Call.UpdateApplicationPasswordCredentials appObjID
      [{ StartDate := some (w.now : Int), EndDate := some ((w.now : Int) + duration),
         KeyID := some keyID, Value := some password }] none] := by
  unfold updateRootPassword at h
  simp only [World.GenerateUUID, World.generate, World.UpdateApplicationPasswordCredentials] at h
  rcases hU : u.GenerateUUID w.ext with ⟨⟨g, eg⟩, x1⟩
  rw [hU] at h
  cases eg with
  | some e => simp at h
  | none =>
    simp only at h
    cases hM : markKeyID g with
    | panic m => simp [hM] at h
    | ret k =>
      simp only [hM] at h
      rcases hP : c.passwords_generate x1 with ⟨⟨pw, ep⟩, x2⟩
      rw [hP] at h
      cases ep with
      | some e => simp at h
      | none =>
        simp only at h
        rcases hW : c.provider.UpdateApplicationPasswordCredentials appObjID
          ([] ++ [{ StartDate := some (w.now : Int), EndDate := some ((w.now : Int) + duration),
                    KeyID := some k, Value := some pw }]) x2 with ⟨ew, x3⟩
        rw [hW] at h
        cases ew with
        | some e => simp at h
        | none =>
          simp only [Prod.mk.injEq, Outcome.ret.injEq] at h
          obtain ⟨⟨hk, hp, -⟩, hw⟩ := h
          subst hk hp
          rw [← hw]
          simp

/-- The witness of C7: on the example world, whose application holds two credentials, the call
returns without error and the only provider call is the update with the single new credential. -/
theorem updateRootPassword_replaces_witness :
    (updateRootPassword (Store.uuid popString) (Store.client popString) "app" 5000 exampleWorld).2.log =
      [] ++ [Call.UpdateApplicationPasswordCredentials "app"
        [{ StartDate := some ((1000 : Nat) : Int), EndDate := some (((1000 : Nat) : Int) + 5000),
           KeyID := some "ffffff3d-1111-2222-3333-444444444444", Value := some "s3cret" }] none] :=
  updateRootPassword_replaces (Store.uuid popString) (Store.client popString) "app" 5000
    exampleWorld _ "ffffff3d-1111-2222-3333-444444444444" "s3cret" (by rfl)

/-! ## `addAppPassword` -/

theorem markKeyID_ret {generated keyID : String} (h : markKeyID generated = Outcome.ret keyID) :
    keyID = "ffffff" ++ generated.drop 6 ∧ (generated.length = 36 → keyID.length = 36) := by
  unfold markKeyID at h
  split at h
  · simp at h
  · simp only [Outcome.ret.injEq] at h
    subst h
    refine ⟨rfl, fun h36 => ?_⟩
    rw [String.length_append]
    simp only [String.length, String.data_drop, List.length_drop] at h36 ⊢
    rw [h36]
    rfl

theorem addAppPassword_ok {π : Type} (u : UUIDSource π) (c : client π)
    (appObjID : String) (duration : Int) (w w1 : World π) (keyID password : String)
    (h : addAppPassword u c appObjID duration w = (Outcome.ret (keyID, password, none), w1)) :
    ∃ (generated : String) (L : List PasswordCredential),
      (c.provider.ListApplicationPasswordCredentials appObjID
        (c.passwords_generate (u.GenerateUUID w.ext).2).2).1 = (some L, none) ∧
      w1.ext = (c.provider.UpdateApplicationPasswordCredentials appObjID
        (L ++ [{ StartDate := some (w.now : Int), EndDate := some ((w.now : Int) + duration),
                 KeyID := some keyID, Value := some password }])
        (c.provider.ListApplicationPasswordCredentials appObjID
          (c.passwords_generate (u.GenerateUUID w.ext).2).2).2).2 ∧
      w1.now = w.now ∧
      (u.GenerateUUID w.ext).1 = (generated, none) ∧
      keyID = "ffffff" ++ generated.drop 6 ∧
      (generated.length = 36 → keyID.length = 36) ∧
      w1.log = w.log ++
        [Call.ListApplicationPasswordCredentials appObjID (some L) none,
         Call.UpdateApplicationPasswordCredentials appObjID
           (L ++ [{ StartDate := some (w.now : Int), EndDate := some ((w.now : Int) + duration),
                    KeyID := some keyID, Value := some password }]) none] := by
  unfold addAppPassword at h
  simp only [World.GenerateUUID, World.generate, World.ListApplicationPasswordCredentials,
    World.UpdateApplicationPasswordCredentials] at h
  rcases hU : u.GenerateUUID w.ext with ⟨⟨g, eg⟩, x1⟩
  rw [hU] at h
  cases eg with
  | some e => simp at h
  | none =>
    simp only at h
    cases hM : markKeyID g with
    | panic m => simp [hM] at h
    | ret k =>
      simp only [hM] at h
      rcases hP : c.passwords_generate x1 with ⟨⟨pw, ep⟩, x2⟩
      rw [hP] at h
      cases ep with
      | some e => simp at h
      | none =>
        simp only at h
        rcases hL : c.provider.ListApplicationPasswordCredentials appObjID x2 with ⟨⟨v, el⟩, x3⟩
        rw [hL] at h
        cases el with
        | some e => simp at h
        | none =>
          cases v with
          | none => simp at h
          | some L =>
            simp only at h
            rcases hW : c.provider.UpdateApplicationPasswordCredentials appObjID
              (L ++ [{ StartDate := some (w.now : Int), EndDate := some ((w.now : Int) + duration),
                       KeyID := some k, Value := some pw }]) x3 with ⟨ew, x4⟩
            rw [hW] at h
            cases ew with
            | some e => simp at h
            | none =>
              simp only [Prod.mk.injEq, Outcome.ret.injEq] at h
              obtain ⟨⟨hk, hp, -⟩, hw⟩ := h
              subst hk hp
              obtain ⟨hk1, hk2⟩ := markKeyID_ret hM
              refine ⟨g, L, rfl, ?_, ?_, rfl, hk1, hk2, ?_⟩
              · rw [← hw, hW]
              · rw [← hw]
              · rw [← hw]
                simp

theorem addAppPassword.times_store {ε : Type} (genU genP : ε → (String × Option GoError) × ε)
    (appObjID : String) (duration : Int) (n : Nat) :
    ∀ (w : World (Store ε)) (keys : List (String × String)),
      (addAppPassword.times (Store.uuid genU) (Store.client genP) appObjID duration n w).1 =
          keys.map addAppPassword.success →
        keys.length = n ∧
        (∃ added : List PasswordCredential,
          (addAppPassword.times (Store.uuid genU) (Store.client genP) appObjID duration n w).2.ext.creds =
            w.ext.creds ++ added ∧
          added.map (fun cred => cred.KeyID) = keys.map (fun kp => some kp.1)) ∧
        ∀ kp ∈ keys, ∃ tail : String, kp.1 = "ffffff" ++ tail := by
  induction n with
  | zero =>
    intro w keys h
    simp only [addAppPassword.times] at h
    have hk : keys = [] := by
      cases keys with
      | nil => rfl
      | cons a l => simp at h
    subst hk
    exact ⟨rfl, ⟨[], by simp [addAppPassword.times], rfl⟩, by simp⟩
  | succ n ih =>
    intro w keys h
    simp only [addAppPassword.times] at h
    cases keys with
    | nil => simp at h
    | cons kp rest =>
      simp only [List.map_cons, List.cons.injEq] at h
      obtain ⟨h1, h2⟩ := h
      have hcall : addAppPassword (Store.uuid genU) (Store.client genP) appObjID duration w =
          (Outcome.ret (kp.1, kp.2, none),
            (addAppPassword (Store.uuid genU) (Store.client genP) appObjID duration w).2) :=
        Prod.ext h1 rfl
      obtain ⟨g, L, hL, hext, -, -, hkey, -, -⟩ := addAppPassword_ok _ _ _ _ _ _ _ _ hcall
      obtain ⟨hlen, ⟨added, hadd, hkeys⟩, hpre⟩ := ih _ rest h2
      have hLw : L = w.ext.creds := by
        simp only [Store.client, Store.provider, Store.uuid, Prod.mk.injEq, Option.some.injEq,
          and_true] at hL
        exact hL.symm
      have hcreds : (addAppPassword (Store.uuid genU) (Store.client genP) appObjID duration w).2.ext.creds =
          w.ext.creds ++ [{ StartDate := some (w.now : Int), EndDate := some ((w.now : Int) + duration),
                            KeyID := some kp.1, Value := some kp.2 }] := by
        rw [hext, hLw]
        simp [Store.client, Store.provider]
      refine ⟨by simp [hlen],
        ⟨{ StartDate := some (w.now : Int), EndDate := some ((w.now : Int) + duration),
           KeyID := some kp.1, Value := some kp.2 } :: added, ?_, ?_⟩, ?_⟩
      · simp only [addAppPassword.times]
        rw [hadd, hcreds]
        simp
      · simp [hkeys]
      · intro kp1 hkp1
        rcases List.mem_cons.mp hkp1 with rfl | hin
        · exact ⟨_, hkey⟩
        · exact hpre _ hin

/-- C6: `addAppPassword` is additive. First part: for every provider, a call that returns without
error has fetched a list `L` and has written back exactly `L` followed by one new credential; the
KeyID of that credential is the keyID returned to the caller, which is the generated UUID with its
first six characters replaced by `ffffff` (of length 36 when the UUID has length 36). Second
part: on a provider that stores what is written, after `n` calls that all return without error
the list is the list before the first call followed by `n` credentials, whose KeyIDs are the
returned keyIDs, each beginning with `ffffff`. -/
theorem addAppPassword_additive :
    (∀ (π : Type) (u : UUIDSource π) (c : client π) (appObjID : String) (duration : Int)
        (w w1 : World π) (keyID password : String),
      addAppPassword u c appObjID duration w = (Outcome.ret (keyID, password, none), w1) →
      ∃ (generated : String) (L : List PasswordCredential),
        (u.GenerateUUID w.ext).1 = (generated, none) ∧
        keyID = "ffffff" ++ generated.drop 6 ∧
        (generated.length = 36 → keyID.length = 36) ∧
        w1.log = w.log ++
          [Call.ListApplicationPasswordCredentials appObjID (some L) none,
           Call.UpdateApplicationPasswordCredentials appObjID
             (L ++ [{ StartDate := some (w.now : Int), EndDate := some ((w.now : Int) + duration),
                      KeyID := some keyID, Value := some password }]) none]) ∧
    (∀ (ε : Type) (genU genP : ε → (String × Option GoError) × ε) (appObjID : String)
        (duration : Int) (n : Nat) (w : World (Store ε)) (keys : List (String × String)),
      (addAppPassword.times (Store.uuid genU) (Store.client genP) appObjID duration n w).1 =
          keys.map addAppPassword.success →
      ∃ added : List PasswordCredential,
        (addAppPassword.times (Store.uuid genU) (Store.client genP) appObjID duration n w).2.ext.creds =
          w.ext.creds ++ added ∧
        added.length = n ∧
        added.map (fun cred => cred.KeyID) = keys.map (fun kp => some kp.1) ∧
        ∀ kp ∈ keys, ∃ tail : String, kp.1 = "ffffff" ++ tail) := by
  constructor
  · intro π u c appObjID duration w w1 keyID password h
    obtain ⟨g, L, -, -, -, hg, hk, h36, hlog⟩ := addAppPassword_ok _ _ _ _ _ _ _ _ h
    exact ⟨g, L, hg, hk, h36, hlog⟩
  · intro ε genU genP appObjID duration n w keys h
    obtain ⟨hlen, ⟨added, hadd, hkeys⟩, hpre⟩ :=
      addAppPassword.times_store genU genP appObjID duration n w keys h
    refine ⟨added, hadd, ?_, hkeys, hpre⟩
    have := congrArg List.length hkeys
    simpa [hlen] using this

/-- The witness of C6: one call on the example world, and two calls in a row on the example
world with entropy for two calls. -/
theorem addAppPassword_additive_witness :
    (∃ (generated : String) (L : List PasswordCredential),
      ((Store.uuid popString).GenerateUUID exampleWorld.ext).1 = (generated, none) ∧
      "ffffff3d-1111-2222-3333-444444444444" = "ffffff" ++ generated.drop 6 ∧
      (generated.length = 36 → "ffffff3d-1111-2222-3333-444444444444".length = 36) ∧
      (addAppPassword (Store.uuid popString) (Store.client popString) "app" 5000 exampleWorld).2.log =
        exampleWorld.log ++
          [Call.ListApplicationPasswordCredentials "app" (some L) none,
           Call.UpdateApplicationPasswordCredentials "app"
             (L ++ [{ StartDate := some (exampleWorld.now : Int),
                      EndDate := some ((exampleWorld.now : Int) + 5000),
                      KeyID := some "ffffff3d-1111-2222-3333-444444444444",
                      Value := some "s3cret" }]) none]) ∧
    (∃ added : List PasswordCredential,
      (addAppPassword.times (Store.uuid popString) (Store.client popString) "app" 5000 2
          exampleWorld2).2.ext.creds = exampleWorld2.ext.creds ++ added ∧
      added.length = 2 ∧
      added.map (fun cred => cred.KeyID) =
        [("ffffff3d-1111-2222-3333-444444444444", "s3cret"),
         ("ffffff99-5555-6666-7777-888888888888", "hunter2")].map (fun kp => some kp.1) ∧
      ∀ kp ∈ [("ffffff3d-1111-2222-3333-444444444444", "s3cret"),
              ("ffffff99-5555-6666-7777-888888888888", "hunter2")],
        ∃ tail : String, kp.1 = "ffffff" ++ tail) :=
  ⟨addAppPassword_additive.1 _ (Store.uuid popString) (Store.client popString) "app" 5000
      exampleWorld _ "ffffff3d-1111-2222-3333-444444444444" "s3cret" (by rfl),
   addAppPassword_additive.2 _ popString popString "app" 5000 2 exampleWorld2
      [("ffffff3d-1111-2222-3333-444444444444", "s3cret"),
       ("ffffff99-5555-6666-7777-888888888888", "hunter2")] (by rfl)⟩

/-! ## `deleteAppPassword` -/

theorem deleteAppPassword.scan_none (keyID : String) (curCreds : List PasswordCredential) :
    ∀ (todo : List PasswordCredential) (i : Nat),
      (∀ x ∈ todo, hasKeyID keyID x = false) →
        deleteAppPassword.scan keyID curCreds todo i = (curCreds, false) := by
  intro todo
  induction todo with
  | nil => intro i _; rfl
  | cons x rest ih =>
    intro i h
    have hx : ¬ to.String x.KeyID = keyID := by
      simpa [hasKeyID] using h x (List.mem_cons_self _ _)
    simp only [deleteAppPassword.scan, hx, if_false]
    exact ih (i + 1) (fun y hy => h y (List.mem_cons_of_mem _ hy))

theorem deleteAppPassword.scan_found (keyID : String) (curCreds : List PasswordCredential) :
    ∀ (mid : List PasswordCredential) (x : PasswordCredential) (post : List PasswordCredential)
      (i : Nat),
      (∀ y ∈ mid, hasKeyID keyID y = false) → hasKeyID keyID x = true →
        deleteAppPassword.scan keyID curCreds (mid ++ x :: post) i =
          ((curCreds.set (i + mid.length) (curCreds.getLastD x)).dropLast, true) := by
  intro mid
  induction mid with
  | nil =>
    intro x post i _ hx
    have hx1 : to.String x.KeyID = keyID := by simpa [hasKeyID] using hx
    simp [deleteAppPassword.scan, hx1]
  | cons y rest ih =>
    intro x post i h hx
    have hy : ¬ to.String y.KeyID = keyID := by
      simpa [hasKeyID] using h y (List.mem_cons_self _ _)
    have hstep : deleteAppPassword.scan keyID curCreds ((y :: rest) ++ x :: post) i =
        deleteAppPassword.scan keyID curCreds (rest ++ x :: post) (i + 1) := by
      show deleteAppPassword.scan keyID curCreds (y :: (rest ++ x :: post)) i = _
      simp only [deleteAppPassword.scan, hy, if_false]
    rw [hstep, ih x post (i + 1) (fun z hz => h z (List.mem_cons_of_mem _ hz)) hx]
    simp only [List.length_cons]
    rw [show i + 1 + rest.length = i + (rest.length + 1) by omega]

theorem swap_remove_perm (pre : List PasswordCredential) (x : PasswordCredential)
    (post : List PasswordCredential) :
    (((pre ++ x :: post).set pre.length ((pre ++ x :: post).getLastD x)).dropLast).Perm
      (pre ++ post) := by
  cases post using List.reverseRecOn with
  | nil =>
    have h1 : (pre ++ [x]).getLastD x = x := List.getLastD_concat _ _ _
    rw [h1, List.set_append_right _ _ (le_refl _)]
    simp
  | append_singleton post1 l _ =>
    have h1 : (pre ++ x :: (post1 ++ [l])).getLastD x = l := by
      rw [show pre ++ x :: (post1 ++ [l]) = (pre ++ x :: post1) ++ [l] by simp]
      exact List.getLastD_concat _ _ _
    rw [h1, List.set_append_right _ _ (le_refl _)]
    have h2 : (pre ++ (x :: (post1 ++ [l])).set (pre.length - pre.length) l).dropLast =
        pre ++ l :: post1 := by
      rw [show (pre ++ (x :: (post1 ++ [l])).set (pre.length - pre.length) l) =
        (pre ++ l :: post1) ++ [l] by simp]
      exact List.dropLast_concat
    rw [h2]
    refine List.Perm.append_left pre ?_
    exact (List.perm_append_singleton l post1).symm

/-- C5, as the claim states it, fails: on a world whose application holds two entries with the
same KeyID (and a third entry), all provider calls succeed and `deleteAppPassword` returns no
error, yet the list written back still contains an entry with that KeyID. -/
theorem deleteAppPassword_keeps_duplicate :
    (deleteAppPassword (Store.client popString) "app" "ffffff00-0000-0000-0000-000000000001"
      duplicateWorld).1 = Outcome.ret none ∧
    (deleteAppPassword (Store.client popString) "app" "ffffff00-0000-0000-0000-000000000001"
      duplicateWorld).2.ext.creds =
        [⟨none, none, some "ffffff00-0000-0000-0000-000000000002", some "third"⟩,
         ⟨none, none, some "ffffff00-0000-0000-0000-000000000001", some "second"⟩] ∧
    ∃ x ∈ (deleteAppPassword (Store.client popString) "app" "ffffff00-0000-0000-0000-000000000001"
      duplicateWorld).2.ext.creds, to.String x.KeyID = "ffffff00-0000-0000-0000-000000000001" :=
  ⟨by rfl, by rfl,
    ⟨⟨none, none, some "ffffff00-0000-0000-0000-000000000001", some "second"⟩, by decide, by rfl⟩⟩

/-- C5, amended: `deleteAppPassword` removes the first entry whose KeyID equals `keyID`. For every
fetched list `L`, when the provider calls of the run succeed (the read, and the update of the
list that the loop leaves, when the loop finds an entry) it returns no error; when no entry of `L` has
that KeyID the only provider call is the read; otherwise the list written back is, up to order,
`L` without its first entry with that KeyID: it is one entry shorter, it retains every entry of
`L` with a different KeyID, and when exactly one entry of `L` has that KeyID it contains none. -/
theorem deleteAppPassword_removes_first {π : Type} (c : client π) (appObjID keyID : String)
    (w : World π) (L : List PasswordCredential) (ext1 : π)
    (hList : c.provider.ListApplicationPasswordCredentials appObjID w.ext = ((some L, none), ext1))
    (hUpdate : (deleteAppPassword.scan keyID L L 0).2 = true →
      (c.provider.UpdateApplicationPasswordCredentials appObjID
        (deleteAppPassword.scan keyID L L 0).1 ext1).1 = none) :
    (deleteAppPassword c appObjID keyID w).1 = Outcome.ret none ∧
    ((∀ x ∈ L, hasKeyID keyID x = false) →
      (deleteAppPassword c appObjID keyID w).2.log =
        w.log ++ [Call.ListApplicationPasswordCredentials appObjID (some L) none]) ∧
    ((∃ x ∈ L, hasKeyID keyID x = true) →
      ∃ written : List PasswordCredential,
        (deleteAppPassword c appObjID keyID w).2.log =
          w.log ++ [Call.ListApplicationPasswordCredentials appObjID (some L) none,
                    Call.UpdateApplicationPasswordCredentials appObjID written none] ∧
        written.Perm (L.eraseP (hasKeyID keyID)) ∧
        written.length + 1 = L.length ∧
        (∀ x ∈ L, hasKeyID keyID x = false → x ∈ written) ∧
        (L.countP (hasKeyID keyID) = 1 → ∀ x ∈ written, hasKeyID keyID x = false)) := by
  by_cases hno : ∀ x ∈ L, hasKeyID keyID x = false
  · have hscan := deleteAppPassword.scan_none keyID L L 0 hno
    have hrun : deleteAppPassword c appObjID keyID w =
        (Outcome.ret none,
          { w with
            ext := ext1,
            log := w.log ++ [Call.ListApplicationPasswordCredentials appObjID (some L) none] }) := by
      simp only [deleteAppPassword, World.ListApplicationPasswordCredentials, hList, hscan]
    refine ⟨by rw [hrun], fun _ => by rw [hrun], ?_⟩
    rintro ⟨x, hx, hpx⟩
    rw [hno x hx] at hpx
    cases hpx
  · have hex : ∃ x ∈ L, hasKeyID keyID x = true := by
      by_contra hcon
      apply hno
      intro x hx
      cases hp : hasKeyID keyID x with
      | false => rfl
      | true => exact absurd ⟨x, hx, hp⟩ hcon
    obtain ⟨x0, hx0, hpx0⟩ := hex
    obtain ⟨x, pre, post, hpre, hpx, hL, herase⟩ := List.exists_of_eraseP hx0 hpx0
    have hpre1 : ∀ y ∈ pre, hasKeyID keyID y = false := by
      intro y hy
      simpa using hpre y hy
    have hscan := deleteAppPassword.scan_found keyID L pre x post 0 hpre1 hpx
    rw [← hL, Nat.zero_add] at hscan
    have hperm : ((L.set pre.length (L.getLastD x)).dropLast).Perm (L.eraseP (hasKeyID keyID)) := by
      rw [herase, hL]
      exact swap_remove_perm pre x post
    have hU := hUpdate (by rw [hscan])
    rw [hscan] at hU
    simp only at hU
    have hrun : deleteAppPassword c appObjID keyID w =
        (Outcome.ret none,
          { w with
          ext := (c.provider.UpdateApplicationPasswordCredentials appObjID
            ((L.set pre.length (L.getLastD x)).dropLast) ext1).2,
          log := w.log ++ [Call.ListApplicationPasswordCredentials appObjID (some L) none] ++
            [Call.UpdateApplicationPasswordCredentials appObjID
              ((L.set pre.length (L.getLastD x)).dropLast) none] }) := by
      simp only [deleteAppPassword, World.ListApplicationPasswordCredentials, hList, hscan,
        World.UpdateApplicationPasswordCredentials]
      rcases hW : c.provider.UpdateApplicationPasswordCredentials appObjID
        ((L.set pre.length (L.getLastD x)).dropLast) ext1 with ⟨ew, x3⟩
      rw [hW] at hU
      simp only at hU
      subst hU
      rfl
    refine ⟨by rw [hrun], ?_, ?_⟩
    · intro hall
      rw [hall x0 hx0] at hpx0
      cases hpx0
    · intro _
      refine ⟨(L.set pre.length (L.getLastD x)).dropLast, by rw [hrun]; simp, hperm, ?_, ?_, ?_⟩
      · rw [hperm.length_eq, herase, hL]
        simp
        omega
      · intro y hy hpy
        rw [hperm.mem_iff]
        exact (List.mem_eraseP_of_neg (by simp [hpy])).mpr hy
      · intro hcount y hy
        rw [hperm.mem_iff, herase] at hy
        have hc : (pre ++ post).countP (hasKeyID keyID) = 0 := by
          rw [hL] at hcount
          simp only [List.countP_append, List.countP_cons, hpx, if_true] at hcount ⊢
          omega
        have := (List.countP_eq_zero.mp hc) y hy
        simpa using this

/-- The witness of C5 as amended: on the example world, deleting the KeyID of the second of the
two stored entries. -/
theorem deleteAppPassword_removes_first_witness :
    (Store.client popString).provider.ListApplicationPasswordCredentials "app" exampleWorld.ext =
      ((some exampleWorld.ext.creds, none), exampleWorld.ext) ∧
    (deleteAppPassword (Store.client popString) "app" "ffffff00-0000-0000-0000-000000000002"
      exampleWorld).1 = Outcome.ret none ∧
    ((∀ x ∈ exampleWorld.ext.creds, hasKeyID "ffffff00-0000-0000-0000-000000000002" x = false) →
      (deleteAppPassword (Store.client popString) "app" "ffffff00-0000-0000-0000-000000000002"
        exampleWorld).2.log =
        exampleWorld.log ++
          [Call.ListApplicationPasswordCredentials "app" (some exampleWorld.ext.creds) none]) ∧
    ((∃ x ∈ exampleWorld.ext.creds, hasKeyID "ffffff00-0000-0000-0000-000000000002" x = true) →
      ∃ written : List PasswordCredential,
        (deleteAppPassword (Store.client popString) "app" "ffffff00-0000-0000-0000-000000000002"
          exampleWorld).2.log =
          exampleWorld.log ++
            [Call.ListApplicationPasswordCredentials "app" (some exampleWorld.ext.creds) none,
             Call.UpdateApplicationPasswordCredentials "app" written none] ∧
        written.Perm
          (exampleWorld.ext.creds.eraseP (hasKeyID "ffffff00-0000-0000-0000-000000000002")) ∧
        written.length + 1 = exampleWorld.ext.creds.length ∧
        (∀ x ∈ exampleWorld.ext.creds,
          hasKeyID "ffffff00-0000-0000-0000-000000000002" x = false → x ∈ written) ∧
        (exampleWorld.ext.creds.countP (hasKeyID "ffffff00-0000-0000-0000-000000000002") = 1 →
          ∀ x ∈ written, hasKeyID "ffffff00-0000-0000-0000-000000000002" x = false)) :=
  ⟨rfl, deleteAppPassword_removes_first (Store.client popString) "app"
    "ffffff00-0000-0000-0000-000000000002" exampleWorld exampleWorld.ext.creds exampleWorld.ext
    rfl (fun _ => rfl)⟩

/-! ## Configuration -/

theorem pathConfigWrite.fields_ttl {σ : Type} (b : Backend σ) (config : azureConfig)
    (data : FieldData) (merr : Option MultiError) :
    (pathConfigWrite.fields b config data merr).1.DefaultTTL =
      (match data.ttl with
       | some raw => secondsToDuration raw
       | none => config.DefaultTTL) ∧
    (pathConfigWrite.fields b config data merr).1.MaxTTL =
      (match data.max_ttl with
       | some raw => secondsToDuration raw
       | none => config.MaxTTL) := by
  unfold pathConfigWrite.fields
  constructor <;>
  · simp only
    repeat' split
    all_goals rfl

theorem pathConfigWrite.validate_errors (config : azureConfig) (merr : Option MultiError) :
    multierror.errorsOf (pathConfigWrite.validate config merr) =
      multierror.errorsOf merr ++ ttlErrors config.DefaultTTL config.MaxTTL := by
  unfold pathConfigWrite.validate ttlErrors
  by_cases h1 : config.DefaultTTL < 0 <;> by_cases h2 : config.MaxTTL < 0 <;>
    by_cases h3 : config.DefaultTTL > config.MaxTTL ∧ config.MaxTTL ≠ 0 <;>
    simp [h1, h2, h3, multierror.errorsOf_Append]

theorem secondsToDuration_in_range (raw : Int) (h1 : -9223372036 ≤ raw) (h2 : raw ≤ 9223372036) :
    secondsToDuration raw = raw * 1000000000 := by
  unfold secondsToDuration wrapInt64
  have h3 : (raw * 1000000000 + 2 ^ 63) % 2 ^ 64 = raw * 1000000000 + 2 ^ 63 := by
    apply Int.emod_eq_of_lt <;> norm_num <;> omega
  rw [h3]
  ring

theorem pathConfigWrite.fields_supplied {σ : Type} (b : Backend σ) (config : azureConfig)
    (data : FieldData) (merr : Option MultiError) (hfit : ttlsFit data = true) :
    (pathConfigWrite.fields b config data merr).1.DefaultTTL = suppliedTTL config data ∧
    (pathConfigWrite.fields b config data merr).1.MaxTTL = suppliedMaxTTL config data := by
  obtain ⟨ht, hm⟩ := pathConfigWrite.fields_ttl b config data merr
  rw [ht, hm]
  unfold suppliedTTL suppliedMaxTTL
  simp only [ttlsFit, Bool.and_eq_true] at hfit
  constructor
  · cases h : data.ttl with
    | none => rfl
    | some raw =>
      have hr := hfit.1
      rw [h] at hr
      simp only [decide_eq_true_eq] at hr
      exact secondsToDuration_in_range raw hr.1 hr.2
  · cases h : data.max_ttl with
    | none => rfl
    | some raw =>
      have hr := hfit.2
      rw [h] at hr
      simp only [decide_eq_true_eq] at hr
      exact secondsToDuration_in_range raw hr.1 hr.2

/-- C9, as the claim states it, fails: a write that supplies a ttl of 9223372037 seconds over the
example configuration (max_ttl 7200 seconds). The supplied ttl is not negative and exceeds the
nonzero max_ttl, so the claim asks for the one error "ttl > max_ttl"; the product with
`time.Second` wraps to a negative duration in 64-bit arithmetic, and the aggregate of the code
holds the one error "ttl < 0". The request is outside the range of `ttlsFit`. -/
theorem pathConfigWrite_overflowing_ttl :
    getConfig exampleBackend exampleState.storage = (some exampleConfig, none) ∧
    ttlsFit overflowingTTL = false ∧
    ttlErrors (suppliedTTL exampleConfig overflowingTTL)
      (suppliedMaxTTL exampleConfig overflowingTTL) = [GoError.New "ttl > max_ttl"] ∧
    multierror.errorsOf (pathConfigWrite.validate
        (pathConfigWrite.fields exampleBackend exampleConfig overflowingTTL none).1
        (pathConfigWrite.fields exampleBackend exampleConfig overflowingTTL none).2) =
      [GoError.New "ttl < 0"] ∧
    pathConfigWrite exampleBackend overflowingTTL exampleState =
      ((some (Response.ErrorResponse "1 error occurred:\n\t* ttl < 0\n\n"), none),
        exampleState) := by
  refine ⟨rfl, by decide, by decide, by decide, by rfl⟩

/-- C9, amended: for every stored configuration and every write request whose supplied ttl and
max_ttl are numbers of seconds that a duration can hold (at most 9223372036 in magnitude),
taking ttl and max_ttl as the supplied value where supplied and the stored value otherwise, the
configuration that is validated holds these two values, and the aggregate holds, after the
format errors of the fields, one error "ttl < 0" exactly when ttl < 0, one error "max_ttl < 0"
exactly when max_ttl < 0 and one error "ttl > max_ttl" exactly when ttl > max_ttl and max_ttl
is nonzero, all in the same aggregate; and whenever the aggregate is not empty, the write
returns the error response made of it and leaves the backend state as it was: nothing is put to
storage and the cached client is not reset. -/
theorem pathConfigWrite_reports_all {σ κ : Type} (b : Backend σ) (data : FieldData)
    (st : BackendState σ κ) (stored : azureConfig)
    (hstored : getConfig b st.storage = (some stored, none))
    (hfit : ttlsFit data = true) :
    (pathConfigWrite.fields b stored data none).1.DefaultTTL = suppliedTTL stored data ∧
    (pathConfigWrite.fields b stored data none).1.MaxTTL = suppliedMaxTTL stored data ∧
    multierror.errorsOf (pathConfigWrite.validate (pathConfigWrite.fields b stored data none).1
        (pathConfigWrite.fields b stored data none).2) =
      multierror.errorsOf (pathConfigWrite.fields b stored data none).2 ++
        ttlErrors (suppliedTTL stored data) (suppliedMaxTTL stored data) ∧
    (multierror.errorsOf (pathConfigWrite.validate (pathConfigWrite.fields b stored data none).1
        (pathConfigWrite.fields b stored data none).2) = [] ∨
      pathConfigWrite b data st =
        ((some (Response.ErrorResponse (multierror.Error
          ⟨multierror.errorsOf (pathConfigWrite.validate (pathConfigWrite.fields b stored data none).1
            (pathConfigWrite.fields b stored data none).2)⟩)), none), st)) := by
  obtain ⟨ht, hm⟩ := pathConfigWrite.fields_supplied b stored data none hfit
  refine ⟨ht, hm, ?_, ?_⟩
  · rw [pathConfigWrite.validate_errors, ht, hm]
  · by_cases hnil : multierror.errorsOf (pathConfigWrite.validate
        (pathConfigWrite.fields b stored data none).1
        (pathConfigWrite.fields b stored data none).2) = []
    · exact Or.inl hnil
    · right
      simp only [pathConfigWrite, hstored, multierror.ErrorOrNil_eq, hnil, if_false]

/-- The witness of C9 as amended: a write of ttl = -1 and max_ttl = -5 over the example
configuration; the aggregate holds the three errors. -/
theorem pathConfigWrite_reports_all_witness :
    getConfig exampleBackend exampleState.storage = (some exampleConfig, none) ∧
    ttlsFit negativeTTLs = true ∧
    ttlErrors (suppliedTTL exampleConfig negativeTTLs) (suppliedMaxTTL exampleConfig negativeTTLs) =
      [GoError.New "ttl < 0", GoError.New "max_ttl < 0", GoError.New "ttl > max_ttl"] ∧
    (pathConfigWrite.fields exampleBackend exampleConfig negativeTTLs none).1.DefaultTTL =
      suppliedTTL exampleConfig negativeTTLs ∧
    (pathConfigWrite.fields exampleBackend exampleConfig negativeTTLs none).1.MaxTTL =
      suppliedMaxTTL exampleConfig negativeTTLs ∧
    multierror.errorsOf (pathConfigWrite.validate
        (pathConfigWrite.fields exampleBackend exampleConfig negativeTTLs none).1
        (pathConfigWrite.fields exampleBackend exampleConfig negativeTTLs none).2) =
      multierror.errorsOf (pathConfigWrite.fields exampleBackend exampleConfig negativeTTLs none).2 ++
        ttlErrors (suppliedTTL exampleConfig negativeTTLs)
          (suppliedMaxTTL exampleConfig negativeTTLs) ∧
    (multierror.errorsOf (pathConfigWrite.validate
        (pathConfigWrite.fields exampleBackend exampleConfig negativeTTLs none).1
        (pathConfigWrite.fields exampleBackend exampleConfig negativeTTLs none).2) = [] ∨
      pathConfigWrite exampleBackend negativeTTLs exampleState =
        ((some (Response.ErrorResponse (multierror.Error
          ⟨multierror.errorsOf (pathConfigWrite.validate
            (pathConfigWrite.fields exampleBackend exampleConfig negativeTTLs none).1
            (pathConfigWrite.fields exampleBackend exampleConfig negativeTTLs none).2)⟩)), none),
          exampleState)) :=
  ⟨rfl, by decide, by decide,
    pathConfigWrite_reports_all exampleBackend negativeTTLs exampleState exampleConfig rfl
      (by decide)⟩

/-- C10 at a failing input: the stored record has a non-empty `resource`, and the data that
`pathConfigRead` returns for it has six entries, none of them under the key `resource` (and none
under `client_secret`). -/
theorem pathConfigRead_omits_resource :
    getConfig exampleBackend (some exampleEntry) = (some exampleConfig, none) ∧
    exampleConfig.Resource = "https://management.azure.com/" ∧
    pathConfigRead exampleBackend (some exampleEntry) =
      (some (Response.Data
        [("subscription_id", Value.str "11111111-2222-3333-4444-555555555555"),
         ("tenant_id", Value.str "66666666-7777-8888-9999-000000000000"),
         ("environment", Value.str "AZUREPUBLICCLOUD"),
         ("client_id", Value.str "client"),
         ("ttl", Value.int 3600),
         ("max_ttl", Value.int 7200)]), none) ∧
    List.lookup "resource"
        [("subscription_id", Value.str "11111111-2222-3333-4444-555555555555"),
         ("tenant_id", Value.str "66666666-7777-8888-9999-000000000000"),
         ("environment", Value.str "AZUREPUBLICCLOUD"),
         ("client_id", Value.str "client"),
         ("ttl", Value.int 3600),
         ("max_ttl", Value.int 7200)] = none :=
  ⟨rfl, rfl, by rfl, by rfl⟩

/-! ## `retry` -/

/-- C3 at a failing input: an operation that reports done=false once and then done=true, under a
context without deadline that is never cancelled, for every runtime and every instant of entry.
`retry` invokes the operation twice and returns the result of the second invocation, but its
one wait lasts 0 nanoseconds: the tick that the timer created by `time.NewTimer(0)` has left in
the channel is received at once, at the instant of entry. The second part shows a run with three
waits, for delays of 7000 milliseconds: the first wait lasts 0 nanoseconds, the two others last
the delay. -/
theorem retry_first_wait_is_skipped :
    (∀ (rt : Runtime) (now : Nat),
      retry rt { deadline := none, cancelAt := none } (doneAfter 1)
          { ext := 0, now := now, log := [] } =
        some ((some "ok", none), { invocations := 2, waits := [0] },
          { ext := 2, now := now, log := [] })) ∧
    retry (constRuntime 5000 true) { deadline := none, cancelAt := none } (doneAfter 3)
        { ext := 0, now := 1000, log := [] } =
      some ((some "ok", none),
        { invocations := 4, waits := [0, 7000 * Millisecond, 7000 * Millisecond] },
        { ext := 4, now := 1000 + 14000 * Millisecond, log := [] }) := by
  refine ⟨fun rt now => ?_, by rfl⟩
  have hfuel : retry.fuel (context.WithTimeout { deadline := none, cancelAt := none }
      retryTimeout now) now = 40 + 1 + 1 := by
    simp [retry.fuel, context.WithTimeout, Context.doneAt, retryTimeout, Second, Millisecond]
  have hpos : 0 < (2000 + rt.Intn now 0 6000) * Millisecond := by
    simp [Millisecond]
  simp only [retry, if_true, hfuel, retry.loop, doneAfter, time.NewTimer]
  simp only [Nat.lt_one_iff, if_true, Timer.Reset, Timer.settle, Nat.add_zero, le_refl,
    Timer.tickAt, Context.readyAt, context.WithTimeout, Context.doneAt, Option.map]
  have h1 : ¬ (now + (2000 + rt.Intn now 0 6000) * Millisecond ≤ now) := by omega
  have h2 : now < max now (now + retryTimeout) := by
    simp [retryTimeout, Second]
  have h3 : 0 < retryTimeout := by decide
  simp [h1, h2, h3, retry.select, Timer.receive, Timer.settle]

/-- C4 at a failing input: a context whose deadline is 90 seconds after the entry (and which is
never cancelled), an operation that never reports done, a runtime whose every delay is 7000
milliseconds. `retry` installs no deadline of its own and returns "retry failed" at the deadline
of the caller, 90 seconds after it was entered, which is later than 80 seconds after. The two
other parts show the same run under a context without deadline, where `retry` returns 80 seconds
after the entry, and under a deadline 30 seconds after the entry, where it returns at that
deadline. -/
theorem retry_waits_past_ceiling :
    ((retry (constRuntime 5000 true) { deadline := some (1000 + 90 * Second), cancelAt := none }
        neverDone { ext := 0, now := 1000, log := [] }).map (fun r => (r.1, r.2.2.now)) =
      some ((none, some (GoError.Errorf "retry failed: " (GoError.New "context deadline exceeded"))),
        1000 + 90 * Second) ∧
      1000 + retryTimeout < 1000 + 90 * Second) ∧
    (retry (constRuntime 5000 true) { deadline := none, cancelAt := none }
        neverDone { ext := 0, now := 1000, log := [] }).map (fun r => (r.1, r.2.2.now)) =
      some ((none, some (GoError.Errorf "retry failed: " (GoError.New "context deadline exceeded"))),
        1000 + retryTimeout) ∧
    (retry (constRuntime 5000 true) { deadline := some (1000 + 30 * Second), cancelAt := none }
        neverDone { ext := 0, now := 1000, log := [] }).map (fun r => (r.1, r.2.2.now)) =
      some ((none, some (GoError.Errorf "retry failed: " (GoError.New "context deadline exceeded"))),
        1000 + 30 * Second) := by
  refine ⟨⟨by rfl, by decide⟩, by rfl, by rfl⟩

theorem Timer.tickAt_Reset (t : Timer) (d now : Nat) (hd : 0 < d) :
    (t.Reset d now).tickAt now = if (t.settle now).C then some now else some (now + d) := by
  have h : ¬ (now + d ≤ now) := by omega
  simp [Timer.tickAt, Timer.Reset, Timer.settle, h]

theorem Timer.clean_after_stale (t : Timer) (d now : Nat) (hd : 0 < d) :
    (((t.Reset d now).receive now).settle now).C = false := by
  have h : ¬ (now + d ≤ now) := by omega
  simp [Timer.receive, Timer.Reset, Timer.settle, h]

theorem Timer.clean_after_fire (t : Timer) (d now : Nat) :
    (((t.Reset d now).receive (now + d)).settle (now + d)).C = false := by
  simp [Timer.receive, Timer.Reset, Timer.settle]

/-- The loop of `retry` returns, and its result satisfies `Q`, for an operation that leaves the
clock alone, when the fuel covers the waits that fit before the context is done (one iteration
more while a stale tick may be in the channel). `P` is an invariant of the world at the head of
the loop: an invocation that reports done=false followed by a wait, which ends at an instant `t`
less than 8000 ms later, keeps it; when the wait ends because the context is done, `t` is not
before the instant `doneAt`. -/
theorem retry.loop_post {π α : Type} (rt : Runtime) (seed : Nat) (ctx : Context) (doneAt : Nat)
    (f : World π → (Option α × Bool × Option GoError) × World π)
    (P : World π → Prop) (Q : Option α × Option GoError → World π → Prop)
    (hctx : ctx.doneAt = some doneAt)
    (hclock : ∀ w, (f w).2.now = w.now)
    (hdone : ∀ w r e w1, P w → f w = ((r, true, e), w1) → Q (r, e) w1)
    (hstep : ∀ w r e w1 t, P w → f w = ((r, false, e), w1) → w1.now ≤ t →
      t < w1.now + 8000 * Millisecond → P { w1 with now := t })
    (hfail : ∀ w r e w1 t, P w → f w = ((r, false, e), w1) → doneAt ≤ t → w1.now ≤ t →
      t < w1.now + 8000 * Millisecond →
      Q (none, some (GoError.Errorf "retry failed: " ctx.Err)) { w1 with now := t }) :
    ∀ (fuel draws : Nat) (timer : Timer) (run : RetryRun) (w : World π),
      P w →
      (doneAt - w.now) / 2000000000 + (if (timer.settle w.now).C then 2 else 1) ≤ fuel →
      ∃ res run1 w1, retry.loop rt seed ctx f fuel draws timer run w = some (res, run1, w1) ∧
        Q res w1 := by
  intro fuel
  induction fuel with
  | zero =>
    intro draws timer run w _ hfuel
    split at hfuel <;> omega
  | succ n ih =>
    intro draws timer run w hP hfuel
    rcases hf : f w with ⟨⟨r, done, e⟩, w1⟩
    have hw1 : w1.now = w.now := by
      have := hclock w
      rw [hf] at this
      exact this
    cases done with
    | true =>
      refine ⟨(r, e), { run with invocations := run.invocations + 1 }, w1, ?_,
        hdone w r e w1 hP hf⟩
      simp only [retry.loop, hf]
    | false =>
      have hdelay : 2000000000 ≤ (2000 + rt.Intn seed draws 6000) * Millisecond := by
        simp only [Millisecond]
        omega
      have hub : (2000 + rt.Intn seed draws 6000) * Millisecond < 8000 * Millisecond := by
        have := rt.Intn_lt seed draws 6000 (by omega)
        simp only [Millisecond]
        omega
      have hpos : 0 < (2000 + rt.Intn seed draws 6000) * Millisecond := by omega
      have hready : ctx.readyAt w1.now = some (max w1.now doneAt) := by
        simp [Context.readyAt, hctx]
      simp only [retry.loop, hf, Timer.tickAt_Reset _ _ _ hpos, hready]
      rw [hw1]
      generalize (2000 + rt.Intn seed draws 6000) * Millisecond = delay at hdelay hpos hub ⊢
      cases hC : (timer.settle w.now).C with
      | true =>
        simp only [hC, if_true] at hfuel
        simp only [if_true, retry.select]
        by_cases h1 : w.now < max w.now doneAt
        · simp only [h1, if_true]
          have hclean := Timer.clean_after_stale timer delay w.now hpos
          apply ih
          · exact hstep w r e w1 _ hP hf (by have := hw1; omega) (by have := hw1; omega)
          · simp only [hclean]
            simp
            omega
        · simp only [h1, if_false]
          have h2 : ¬ (max w.now doneAt < w.now) := by
            simp
          simp only [h2, if_false]
          cases rt.timerFirst draws with
          | true =>
            simp only [if_true]
            have hclean := Timer.clean_after_stale timer delay w.now hpos
            apply ih
            · exact hstep w r e w1 _ hP hf (by have := hw1; omega) (by have := hw1; omega)
            · simp only [hclean]
              simp
              omega
          | false =>
            simp only [Bool.false_eq_true, if_false]
            exact ⟨_, _, _, rfl, hfail w r e w1 _ hP hf (le_max_right _ _)
                (by rw [hw1]; exact le_max_left _ _) (by have := hw1; omega)⟩
      | false =>
        simp only [hC, Bool.false_eq_true, if_false] at hfuel
        simp only [Bool.false_eq_true, if_false, retry.select]
        have hclean := Timer.clean_after_fire timer delay w.now
        by_cases h1 : w.now + delay < max w.now doneAt
        · simp only [h1, if_true]
          apply ih
          · exact hstep w r e w1 _ hP hf (by have := hw1; omega) (by have := hw1; omega)
          · simp only [hclean]
            simp
            have : w.now + delay < doneAt := by
              rcases Nat.lt_or_ge w.now doneAt with h | h
              · rwa [max_eq_right (Nat.le_of_lt h)] at h1
              · rw [max_eq_left h] at h1
                omega
            omega
        · simp only [h1, if_false]
          by_cases h2 : max w.now doneAt < w.now + delay
          · simp only [h2, if_true]
            exact ⟨_, _, _, rfl, hfail w r e w1 _ hP hf (le_max_right _ _)
                (by rw [hw1]; exact le_max_left _ _) (by have := hw1; omega)⟩
          · simp only [h2, if_false]
            cases rt.timerFirst draws with
            | true =>
              simp only [if_true]
              apply ih
              · exact hstep w r e w1 _ hP hf (by have := hw1; omega) (by have := hw1; omega)
              · simp only [hclean]
                simp
                have : w.now + delay = doneAt := by
                  have h3 : w.now + delay = max w.now doneAt := by omega
                  rcases Nat.lt_or_ge w.now doneAt with h | h
                  · rwa [max_eq_right (Nat.le_of_lt h)] at h3
                  · rw [max_eq_left h] at h3
                    omega
                omega
            | false =>
              simp only [Bool.false_eq_true, if_false]
              exact ⟨_, _, _, rfl, hfail w r e w1 _ hP hf (le_max_right _ _)
                (by rw [hw1]; exact le_max_left _ _) (by have := hw1; omega)⟩

/-! ## `assignRoles` -/

/-- The function `retry` runs its loop on the context `retryContext ctx w.now`, with the instant
of entry as the seed of its generator and a timer created with a delay of zero. -/
theorem retry_eq_loop {π α : Type} (rt : Runtime) (ctx : Context)
    (f : World π → (Option α × Bool × Option GoError) × World π) (w : World π) :
    retry rt ctx f w =
      retry.loop rt w.now (retryContext ctx w.now) f (retry.fuel (retryContext ctx w.now) w.now) 0
        (time.NewTimer 0 w.now) { invocations := 0, waits := [] } w :=
  rfl

/-- Whatever the context of the caller, the context that `retry` waits on is done at some
instant. -/
theorem retryContext_doneAt (ctx : Context) (entry : Nat) :
    ∃ d, (retryContext ctx entry).doneAt = some d := by
  rcases ctx with ⟨dl, ca⟩
  cases dl <;> cases ca <;> simp [retryContext, context.WithTimeout, Context.doneAt]

/-- The function `retry`, entered in the world `w`, returns, and its result satisfies `Q`, for an
operation that leaves the clock alone. `P` is an invariant of the world at the head of the
loop, as in `retry.loop_post`; the result "retry failed" is produced at an instant `t` at which
the context that `retry` waits on is done. -/
theorem retry_post {π α : Type} (rt : Runtime) (ctx : Context)
    (f : World π → (Option α × Bool × Option GoError) × World π)
    (P : World π → Prop) (Q : Option α × Option GoError → World π → Prop) (w : World π)
    (hclock : ∀ w0, (f w0).2.now = w0.now)
    (hdone : ∀ w0 r e w1, P w0 → f w0 = ((r, true, e), w1) → Q (r, e) w1)
    (hstep : ∀ w0 r e w1 t, P w0 → f w0 = ((r, false, e), w1) → w1.now ≤ t →
      t < w1.now + 8000 * Millisecond → P { w1 with now := t })
    (hfail : ∀ w0 r e w1 t d, P w0 → f w0 = ((r, false, e), w1) →
      (retryContext ctx w.now).doneAt = some d → d ≤ t → w1.now ≤ t →
      t < w1.now + 8000 * Millisecond →
      Q (none, some (GoError.Errorf "retry failed: " (retryContext ctx w.now).Err))
        { w1 with now := t })
    (hP : P w) :
    ∃ res run1 w1, retry rt ctx f w = some (res, run1, w1) ∧ Q res w1 := by
  obtain ⟨d, hd⟩ := retryContext_doneAt ctx w.now
  rw [retry_eq_loop]
  apply retry.loop_post rt w.now _ d f P Q hd hclock hdone hstep
    (fun w0 r e w1 t h1 h2 h3 h4 h5 => hfail w0 r e w1 t d h1 h2 hd h3 h4 h5)
  · exact hP
  · simp only [retry.fuel, hd, Millisecond]
    have : ((time.NewTimer 0 w.now).settle w.now).C = true := by
      simp [time.NewTimer, Timer.settle]
    simp [this]

theorem Call.terminal_of_transient {a : Call} (h : a.transient = true) : a.terminal = none := by
  unfold Call.transient at h
  unfold Call.terminal
  split at h <;> simp_all

/-- What one call of the closure of `assignRoles` does: one provider call, logged with the answer
of the provider, the clock left alone, and a result that depends on the answer as the source
says. -/
theorem assignRoles.attempt_spec {π : Type} (c : client π) (role : AzureRole)
    (assignmentID : String) (principalID : Option String) (w : World π) :
    ∃ ra err,
      (c.provider.CreateRoleAssignment role.Scope assignmentID role.RoleID principalID w.ext).1 =
        (ra, err) ∧
      (assignRoles.attempt c role assignmentID principalID w).2.ext =
        (c.provider.CreateRoleAssignment role.Scope assignmentID role.RoleID principalID w.ext).2 ∧
      (assignRoles.attempt c role assignmentID principalID w).2.log = w.log ++
        [Call.CreateRoleAssignment role.Scope assignmentID role.RoleID principalID ra err] ∧
      (assignRoles.attempt c role assignmentID principalID w).2.now = w.now ∧
      (assignRoles.attempt c role assignmentID principalID w).1 =
        (match err with
         | some e =>
           if strings.Contains e.Error "PrincipalNotFound" then (none, false, none)
           else (some (to.String ra.ID), true, some e)
         | none => (some (to.String ra.ID), true, none)) := by
  rcases hp : c.provider.CreateRoleAssignment role.Scope assignmentID role.RoleID principalID w.ext
    with ⟨⟨ra, err⟩, x1⟩
  refine ⟨ra, err, rfl, ?_, ?_, ?_, ?_⟩
  · simp only [assignRoles.attempt, World.CreateRoleAssignment, hp]
    cases err with
    | none => rfl
    | some e => simp only []; split <;> rfl
  · simp only [assignRoles.attempt, World.CreateRoleAssignment, hp]
    cases err with
    | none => rfl
    | some e => simp only []; split <;> rfl
  · simp only [assignRoles.attempt, World.CreateRoleAssignment, hp]
    cases err with
    | none => rfl
    | some e => simp only []; split <;> rfl
  · simp only [assignRoles.attempt, World.CreateRoleAssignment, hp]
    cases err with
    | none => rfl
    | some e => simp only []; split <;> rfl

/-- A call of the closure that reports done=false has logged one provider call, answered with a
transient error. -/
theorem assignRoles.attempt_false {π : Type} (c : client π) (role : AzureRole) (aid : String)
    (pid : Option String) (w0 w1 : World π) (r : Option String) (e : Option GoError)
    (hf : assignRoles.attempt c role aid pid w0 = ((r, false, e), w1)) :
    ∃ ra err,
      (c.provider.CreateRoleAssignment role.Scope aid role.RoleID pid w0.ext).1 = (ra, err) ∧
      w1.ext = (c.provider.CreateRoleAssignment role.Scope aid role.RoleID pid w0.ext).2 ∧
      w1.log = w0.log ++ [Call.CreateRoleAssignment role.Scope aid role.RoleID pid ra err] ∧
      w1.now = w0.now ∧
      (Call.CreateRoleAssignment role.Scope aid role.RoleID pid ra err).transient = true := by
  obtain ⟨ra, err, hans, hext, hlog, hnow, hres⟩ := assignRoles.attempt_spec c role aid pid w0
  rw [hf] at hext hlog hnow hres
  simp only at hext hlog hnow hres
  refine ⟨ra, err, hans, hext, hlog, hnow, ?_⟩
  cases err with
  | none => simp at hres
  | some e1 =>
    simp only at hres
    split at hres
    · simpa [Call.transient] using ‹_›
    · simp at hres

/-- A call of the closure that reports done=true has logged one provider call, answered without
error or with an error that is not transient, and its result is made of that answer. -/
theorem assignRoles.attempt_true {π : Type} (c : client π) (role : AzureRole) (aid : String)
    (pid : Option String) (w0 w1 : World π) (r : Option String) (e : Option GoError)
    (hf : assignRoles.attempt c role aid pid w0 = ((r, true, e), w1)) :
    ∃ ra,
      (c.provider.CreateRoleAssignment role.Scope aid role.RoleID pid w0.ext).1 = (ra, e) ∧
      w1.ext = (c.provider.CreateRoleAssignment role.Scope aid role.RoleID pid w0.ext).2 ∧
      w1.log = w0.log ++ [Call.CreateRoleAssignment role.Scope aid role.RoleID pid ra e] ∧
      w1.now = w0.now ∧
      (Call.CreateRoleAssignment role.Scope aid role.RoleID pid ra e).transient = false ∧
      r = some (to.String ra.ID) := by
  obtain ⟨ra, err, hans, hext, hlog, hnow, hres⟩ := assignRoles.attempt_spec c role aid pid w0
  rw [hf] at hext hlog hnow hres
  simp only at hext hlog hnow hres
  cases err with
  | none =>
    simp only [Prod.mk.injEq] at hres
    obtain ⟨h1, -, h3⟩ := hres
    subst h1 h3
    exact ⟨ra, hans, hext, hlog, hnow, rfl, rfl⟩
  | some e1 =>
    simp only at hres
    split at hres
    · simp at hres
    · rename_i hk
      simp only [Prod.mk.injEq] at hres
      obtain ⟨h1, -, h3⟩ := hres
      subst h1 h3
      refine ⟨ra, hans, hext, hlog, hnow, ?_, rfl⟩
      simpa [Call.transient] using hk

theorem Call.sameRequest_trans {r x y : Call} (hx : r.sameRequest x = true)
    (hy : r.sameRequest y = true) : x.sameRequest y = true := by
  cases r <;> cases x <;> cases y <;> simp_all [Call.sameRequest]

theorem Call.isCreateFor_of_sameRequest {scope aid roleID : String} {pid : Option String}
    {ra : RoleAssignment} {err : Option GoError} {x : Call}
    (hx : (Call.CreateRoleAssignment scope aid roleID pid ra err).sameRequest x = true) :
    x.isCreateFor pid = true := by
  cases x <;> simp_all [Call.sameRequest, Call.isCreateFor]

theorem Call.requested_of_sameRequest {scope aid roleID : String} {pid : Option String}
    {ra : RoleAssignment} {err : Option GoError} {x : Call}
    (hx : (Call.CreateRoleAssignment scope aid roleID pid ra err).sameRequest x = true) :
    x.requested = some { RoleID := roleID, Scope := scope } := by
  cases x <;> simp_all [Call.sameRequest, Call.requested]

theorem Call.generatedBy_of_sameRequest {π : Type} (u : UUIDSource π) {scope aid roleID : String}
    {pid : Option String} {ra : RoleAssignment} {err : Option GoError} {x : Call} (s : π)
    (hs : (u.GenerateUUID s).1 = (aid, none))
    (hx : (Call.CreateRoleAssignment scope aid roleID pid ra err).sameRequest x = true) :
    x.generatedBy u := by
  cases x with
  | CreateRoleAssignment s1 a1 r1 p1 ra1 err1 =>
    simp only [Call.sameRequest, decide_eq_true_eq] at hx
    obtain ⟨-, ha, -, -⟩ := hx
    subst ha
    exact ⟨s, hs⟩
  | _ => simp [Call.sameRequest] at hx

/-- One call of `retry` on the closure of `assignRoles`: it returns; every provider call it makes
repeats the same request and holds the answer of the provider; and either all answers were
transient, the context that `retry` waits on is done when it returns, and the result is the
error "retry failed", or the last answer, alone, was not transient and the result is made of
it. -/
theorem assignRoles.retry_spec {π : Type} (rt : Runtime) (ctx : Context) (c : client π)
    (role : AzureRole) (aid : String) (pid : Option String) (w : World π) :
    ∃ res run w2 seg,
      retry rt ctx (assignRoles.attempt c role aid pid) w = some (res, run, w2) ∧
      w2.log = w.log ++ seg ∧
      w.now ≤ w2.now ∧
      (∀ x ∈ seg,
        (Call.CreateRoleAssignment role.Scope aid role.RoleID pid ⟨none⟩ none).sameRequest x = true ∧
        x.answeredBy c.provider) ∧
      ((∃ d pnfs last, res = (none, some (GoError.Errorf "retry failed: " (retryContext ctx w.now).Err)) ∧
          (retryContext ctx w.now).doneAt = some d ∧ d ≤ w2.now ∧
          seg = pnfs ++ [last] ∧ ∀ x ∈ seg, x.transient = true) ∨
       (∃ pnfs ra err,
          seg = pnfs ++ [Call.CreateRoleAssignment role.Scope aid role.RoleID pid ra err] ∧
          (∀ x ∈ pnfs, x.transient = true) ∧
          (Call.CreateRoleAssignment role.Scope aid role.RoleID pid ra err).transient = false ∧
          res = (some (to.String ra.ID), err))) := by
  have key := retry_post rt ctx (assignRoles.attempt c role aid pid)
    (fun w1 => w.now ≤ w1.now ∧ ∃ pnfs, w1.log = w.log ++ pnfs ∧
      ∀ x ∈ pnfs,
        (Call.CreateRoleAssignment role.Scope aid role.RoleID pid ⟨none⟩ none).sameRequest x = true ∧
        x.answeredBy c.provider ∧ x.transient = true)
    (fun res w2 => w.now ≤ w2.now ∧ ∃ seg, w2.log = w.log ++ seg ∧
      (∀ x ∈ seg,
        (Call.CreateRoleAssignment role.Scope aid role.RoleID pid ⟨none⟩ none).sameRequest x = true ∧
        x.answeredBy c.provider) ∧
      ((∃ d pnfs last, res = (none, some (GoError.Errorf "retry failed: " (retryContext ctx w.now).Err)) ∧
          (retryContext ctx w.now).doneAt = some d ∧ d ≤ w2.now ∧
          seg = pnfs ++ [last] ∧ ∀ x ∈ seg, x.transient = true) ∨
       (∃ pnfs ra err,
          seg = pnfs ++ [Call.CreateRoleAssignment role.Scope aid role.RoleID pid ra err] ∧
          (∀ x ∈ pnfs, x.transient = true) ∧
          (Call.CreateRoleAssignment role.Scope aid role.RoleID pid ra err).transient = false ∧
          res = (some (to.String ra.ID), err))))
    w ?_ ?_ ?_ ?_ ⟨le_refl _, [], by simp, by simp⟩
  · obtain ⟨res, run, w2, hret, hnow, seg, hlog, hsame, hcases⟩ := key
    exact ⟨res, run, w2, seg, hret, hlog, hnow, hsame, hcases⟩
  · intro w1
    obtain ⟨_, _, _, _, _, h, _⟩ := assignRoles.attempt_spec c role aid pid w1
    exact h
  · rintro w1 r e w2 ⟨hle, pnfs, h1, h2⟩ hf
    obtain ⟨ra, hans, -, hlog, hnow, hnt, hr⟩ := assignRoles.attempt_true c role aid pid w1 w2 r e hf
    refine ⟨by omega, pnfs ++ [Call.CreateRoleAssignment role.Scope aid role.RoleID pid ra e],
      ?_, ?_, ?_⟩
    · rw [hlog, h1, List.append_assoc]
    · intro x hx
      rcases List.mem_append.mp hx with hx | hx
      · exact ⟨(h2 x hx).1, (h2 x hx).2.1⟩
      · rw [List.mem_singleton.mp hx]
        exact ⟨by simp [Call.sameRequest], w1.ext, hans⟩
    · right
      refine ⟨pnfs, ra, e, rfl, fun x hx => (h2 x hx).2.2, hnt, ?_⟩
      rw [hr]
  · rintro w1 r e w2 t ⟨hle, pnfs, h1, h2⟩ hf ht _
    obtain ⟨ra, err, hans, -, hlog, hnow, htr⟩ :=
      assignRoles.attempt_false c role aid pid w1 w2 r e hf
    refine ⟨by simp only; omega,
      pnfs ++ [Call.CreateRoleAssignment role.Scope aid role.RoleID pid ra err], ?_, ?_⟩
    · simp only
      rw [hlog, h1, List.append_assoc]
    · intro x hx
      rcases List.mem_append.mp hx with hx | hx
      · exact h2 x hx
      · rw [List.mem_singleton.mp hx]
        exact ⟨by simp [Call.sameRequest], ⟨w1.ext, hans⟩, htr⟩
  · rintro w1 r e w2 t d ⟨hle, pnfs, h1, h2⟩ hf hd hdt ht _
    obtain ⟨ra, err, hans, -, hlog, hnow, htr⟩ :=
      assignRoles.attempt_false c role aid pid w1 w2 r e hf
    have hall : ∀ x ∈ pnfs ++ [Call.CreateRoleAssignment role.Scope aid role.RoleID pid ra err],
        (Call.CreateRoleAssignment role.Scope aid role.RoleID pid ⟨none⟩ none).sameRequest x = true ∧
        x.answeredBy c.provider ∧ x.transient = true := by
      intro x hx
      rcases List.mem_append.mp hx with hx | hx
      · exact h2 x hx
      · rw [List.mem_singleton.mp hx]
        exact ⟨by simp [Call.sameRequest], ⟨w1.ext, hans⟩, htr⟩
    refine ⟨by simp only; omega,
      pnfs ++ [Call.CreateRoleAssignment role.Scope aid role.RoleID pid ra err], ?_,
      fun x hx => ⟨(hall x hx).1, (hall x hx).2.1⟩, Or.inl ⟨d, pnfs, _, rfl, hd, hdt, rfl,
        fun x hx => (hall x hx).2.2⟩⟩
    simp only
    rw [hlog, h1, List.append_assoc]

/-- One call of `retry` on the closure of `assignRoles`, under a context without deadline that is
never cancelled, on a provider that answers every request with success or with a transient
error and has at most ten transient answers to give (`m` counts those that remain): `retry`
returns the ID of a successful call. -/
theorem assignRoles.retry_live {π : Type} (rt : Runtime) (c : client π) (role : AzureRole)
    (aid : String) (pid : Option String) (m : π → Nat)
    (herr : ∀ s a r p x e, (c.provider.CreateRoleAssignment s a r p x).1.2 = some e →
      strings.Contains e.Error "PrincipalNotFound" = true ∧
        m (c.provider.CreateRoleAssignment s a r p x).2 < m x)
    (hok : ∀ s a r p x, (c.provider.CreateRoleAssignment s a r p x).1.2 = none →
      m (c.provider.CreateRoleAssignment s a r p x).2 ≤ m x)
    (w : World π) (hm : m w.ext ≤ 10) :
    ∃ id run w2,
      retry rt { deadline := none, cancelAt := none } (assignRoles.attempt c role aid pid) w =
        some ((some id, none), run, w2) ∧
      m w2.ext ≤ m w.ext := by
  have key := retry_post rt { deadline := none, cancelAt := none } (assignRoles.attempt c role aid pid)
    (fun w1 => w1.now + 8000000000 * m w1.ext ≤ w.now + 80000000000 ∧ m w1.ext ≤ m w.ext)
    (fun res w2 => (∃ id, res = (some id, none)) ∧ m w2.ext ≤ m w.ext)
    w ?_ ?_ ?_ ?_ ⟨by omega, le_refl _⟩
  · obtain ⟨res, run, w2, hret, ⟨id, hres⟩, hm2⟩ := key
    subst hres
    exact ⟨id, run, w2, hret, hm2⟩
  · intro w1
    obtain ⟨_, _, _, _, _, h, _⟩ := assignRoles.attempt_spec c role aid pid w1
    exact h
  · rintro w1 r e w2 ⟨-, hm1⟩ hf
    obtain ⟨ra, hans, hext, -, -, hnt, hr⟩ := assignRoles.attempt_true c role aid pid w1 w2 r e hf
    have he : (c.provider.CreateRoleAssignment role.Scope aid role.RoleID pid w1.ext).1.2 = e := by
      rw [hans]
    cases e with
    | some e1 =>
      have := (herr _ _ _ _ _ e1 he).1
      simp [Call.transient, this] at hnt
    | none =>
      have := hok _ _ _ _ _ he
      rw [← hext] at this
      exact ⟨⟨to.String ra.ID, by rw [hr]⟩, by omega⟩
  · rintro w1 r e w2 t ⟨hb, hm1⟩ hf ht htu
    obtain ⟨ra, err, hans, hext, -, hnow, htr⟩ :=
      assignRoles.attempt_false c role aid pid w1 w2 r e hf
    have he : (c.provider.CreateRoleAssignment role.Scope aid role.RoleID pid w1.ext).1.2 = err := by
      rw [hans]
    cases err with
    | none => simp [Call.transient] at htr
    | some e1 =>
      have := (herr _ _ _ _ _ e1 he).2
      rw [← hext] at this
      simp only [Millisecond] at htu
      simp only
      constructor <;> omega
  · rintro w1 r e w2 t d ⟨hb, hm1⟩ hf hd hdt ht htu
    obtain ⟨ra, err, hans, hext, -, hnow, htr⟩ :=
      assignRoles.attempt_false c role aid pid w1 w2 r e hf
    have he : (c.provider.CreateRoleAssignment role.Scope aid role.RoleID pid w1.ext).1.2 = err := by
      rw [hans]
    cases err with
    | none => simp [Call.transient] at htr
    | some e1 =>
      have := (herr _ _ _ _ _ e1 he).2
      rw [← hext] at this
      simp only [Millisecond] at htu
      have hd2 : d = w.now + 80000000000 := by
        simp [retryContext, context.WithTimeout, Context.doneAt, retryTimeout, Second] at hd
        omega
      omega

theorem Call.createdID_of_transient {a : Call} (h : a.transient = true) : a.createdID = none := by
  unfold Call.transient at h
  unfold Call.createdID
  split at h <;> simp_all

theorem Call.createdFor_of_transient {a : Call} (h : a.transient = true) : a.createdFor = none := by
  unfold Call.transient at h
  unfold Call.createdFor
  split at h <;> simp_all

theorem filterMap_eq_nil_of_forall {α β : Type} (f : α → Option β) (l : List α)
    (h : ∀ x ∈ l, f x = none) : l.filterMap f = [] := by
  rw [List.filterMap_eq_nil_iff]
  exact h

theorem assignRoles.chain_of_same (ref : Call) (seg : List Call)
    (h : ∀ x ∈ seg, ref.sameRequest x = true) :
    List.Chain' (fun a b => a.transient = true → a.sameRequest b = true) seg := by
  apply List.Pairwise.chain'
  apply List.pairwise_of_forall_mem_list
  intro a ha b hb _
  exact Call.sameRequest_trans (h a ha) (h b hb)

/-- The loop of `assignRoles` from any list of collected IDs: it returns, and the provider calls
it has made, its result and the instant at which it returns are related as stated for
`assignRoles` below. -/
theorem assignRoles_loop_spec {π : Type} (rt : Runtime) (u : UUIDSource π) (c : client π)
    (ctx : Context) (pid : Option String) (roles : List AzureRole) :
    ∀ (ids0 : List String) (w : World π),
      ∃ ids err w1 evs,
        assignRoles.loop rt u c ctx pid roles ids0 w = some (Outcome.ret (ids, err), w1) ∧
        w1.log = w.log ++ evs ∧
        w.now ≤ w1.now ∧
        (∀ x ∈ evs, x.isCreateFor pid = true ∧ x.answeredBy c.provider ∧ x.generatedBy u) ∧
        List.Chain' (fun a b => a.transient = true → a.sameRequest b = true) evs ∧
        (∀ a, evs.getLast? = some a → a.transient = true →
          ∃ entry d, w.now ≤ entry ∧ entry ≤ w1.now ∧
            (retryContext ctx entry).doneAt = some d ∧ d ≤ w1.now ∧
            err = some (GoError.Wrapf "error while assigning roles: \x7b\x7berr\x7d\x7d"
              (GoError.Errorf "retry failed: " (retryContext ctx entry).Err))) ∧
        (∀ a ∈ evs.dropLast, a.terminal = none) ∧
        (∀ a e, evs.getLast? = some a → a.terminal = some e →
          err = some (GoError.Wrapf "error while assigning roles: \x7b\x7berr\x7d\x7d" e)) ∧
        (err = none →
          ids = ids0 ++ evs.filterMap Call.createdID ∧ evs.filterMap Call.createdFor = roles) ∧
        (err ≠ none → ids = [] ∧ (evs.filterMap Call.createdFor).length < roles.length) ∧
        (evs.filterMap Call.createdFor <+: roles) ∧
        (∀ a, evs.getLast? = some a → a.createdFor = none →
          a.requested = roles[(evs.filterMap Call.createdFor).length]?) ∧
        (err = none ∨
         (∃ e w0, err = some e ∧ w0.log = w.log ++ evs ∧
            (World.GenerateUUID u w0).1.2 = some e ∧ (World.GenerateUUID u w0).2 = w1 ∧
            ∀ a, evs.getLast? = some a → a.createdFor ≠ none) ∨
         (∃ a e, evs.getLast? = some a ∧ a.terminal = some e) ∨
         (∃ a, evs.getLast? = some a ∧ a.transient = true)) := by
  induction roles with
  | nil =>
    intro ids0 w
    refine ⟨ids0, none, w, [], rfl, by simp, le_refl _, by simp, List.chain'_nil, by simp, by simp,
      by simp, fun _ => by simp, fun h => absurd rfl h, by simp, by simp, Or.inl rfl⟩
  | cons role rest ih =>
    intro ids0 w
    rcases hU : u.GenerateUUID w.ext with ⟨⟨aid, eu⟩, x1⟩
    cases eu with
    | some e =>
      refine ⟨[], some e, { w with ext := x1 }, [], ?_, by simp, le_refl _, by simp,
        List.chain'_nil, by simp, by simp, by simp, fun h => by simp at h,
        fun _ => ⟨rfl, by simp⟩, by simp, by simp,
        Or.inr (Or.inl ⟨e, w, rfl, by simp, ?_, ?_, by simp⟩)⟩
      · simp only [assignRoles.loop, World.GenerateUUID, hU]
      · simp only [World.GenerateUUID, hU]
      · simp only [World.GenerateUUID, hU]
    | none =>
      obtain ⟨res, run, w2, seg, hret, hlog0, hnow0, hsame, hcases⟩ :=
        assignRoles.retry_spec rt ctx c role aid pid { w with ext := x1 }
      have hlog : w2.log = w.log ++ seg := hlog0
      have hnow : w.now ≤ w2.now := hnow0
      have hcalls : ∀ x ∈ seg,
          x.isCreateFor pid = true ∧ x.answeredBy c.provider ∧ x.generatedBy u :=
        fun x hx => ⟨Call.isCreateFor_of_sameRequest (hsame x hx).1, (hsame x hx).2,
          Call.generatedBy_of_sameRequest u w.ext (by rw [hU]) (hsame x hx).1⟩
      have hreq : ∀ x ∈ seg, x.requested = some role :=
        fun x hx => Call.requested_of_sameRequest (hsame x hx).1
      have hchain := assignRoles.chain_of_same _ seg (fun x hx => (hsame x hx).1)
      rcases hcases with ⟨d, pnfs, last, hres, hd0, hdle, hseg, htrans⟩ |
        ⟨pnfs, ra, err, hseg, hpnfs, hlast, hres⟩
      · -- every answer was transient and the context is done
        subst hres
        have hd : (retryContext ctx w.now).doneAt = some d := hd0
        have hnone : seg.filterMap Call.createdFor = [] :=
          filterMap_eq_nil_of_forall _ _ (fun x hx => Call.createdFor_of_transient (htrans x hx))
        refine ⟨[], some (GoError.Wrapf "error while assigning roles: \x7b\x7berr\x7d\x7d"
          (GoError.Errorf "retry failed: " (retryContext ctx w.now).Err)), w2, seg, ?_, hlog, hnow,
          hcalls, hchain, ?_, ?_, ?_, fun h => by simp at h, fun _ => ⟨rfl, ?_⟩, ?_, ?_,
          Or.inr (Or.inr (Or.inr ⟨last, ?_, ?_⟩))⟩
        · simp only [assignRoles.loop, World.GenerateUUID, hU, hret]
        · intro a _ _
          exact ⟨w.now, d, le_refl _, hnow, hd, hdle, rfl⟩
        · intro a ha
          exact Call.terminal_of_transient (htrans a (List.mem_of_mem_dropLast ha))
        · intro a e ha hte
          have := Call.terminal_of_transient (htrans a (List.mem_of_getLast?_eq_some ha))
          rw [this] at hte
          cases hte
        · rw [hnone]
          simp
        · rw [hnone]
          exact List.nil_prefix
        · intro a ha _
          rw [hnone, hreq a (List.mem_of_getLast?_eq_some ha)]
          simp
        · rw [hseg, List.getLast?_concat]
        · exact htrans last (by rw [hseg]; simp)
      · subst hres
        have hpnfs_term : ∀ x ∈ pnfs, x.terminal = none :=
          fun x hx => Call.terminal_of_transient (hpnfs x hx)
        cases err with
        | some e1 =>
          -- the last answer is an error of another text
          have hnot : strings.Contains e1.Error "PrincipalNotFound" = false := by
            simpa [Call.transient] using hlast
          have hnone : seg.filterMap Call.createdFor = [] := by
            rw [hseg, List.filterMap_append, filterMap_eq_nil_of_forall _ _
              (fun x hx => Call.createdFor_of_transient (hpnfs x hx))]
            simp [Call.createdFor]
          refine ⟨[], some (GoError.Wrapf "error while assigning roles: \x7b\x7berr\x7d\x7d" e1),
            w2, seg, ?_, hlog, hnow, hcalls, hchain, ?_, ?_, ?_, fun h => by simp at h,
            fun _ => ⟨rfl, ?_⟩, ?_, ?_,
            Or.inr (Or.inr (Or.inl ⟨_, e1, by rw [hseg, List.getLast?_concat], ?_⟩))⟩
          · simp only [assignRoles.loop, World.GenerateUUID, hU, hret]
          · intro a ha hta
            rw [hseg, List.getLast?_concat] at ha
            cases ha
            rw [hlast] at hta
            cases hta
          · intro a ha
            rw [hseg, List.dropLast_concat] at ha
            exact hpnfs_term a ha
          · intro a e ha hte
            rw [hseg, List.getLast?_concat] at ha
            cases ha
            simp only [Call.terminal, hnot, Bool.false_eq_true, if_false, Option.some.injEq] at hte
            subst hte
            rfl
          · rw [hnone]
            simp
          · rw [hnone]
            exact List.nil_prefix
          · intro a ha _
            rw [hnone, hreq a (List.mem_of_getLast?_eq_some ha)]
            simp
          · simp only [Call.terminal, hnot, Bool.false_eq_true, if_false]
        | none =>
          -- the last answer is a success: the loop goes on with the next role
          obtain ⟨ids, err2, w3, evs, hret2, hlog2, hnow2, hcalls2, hchain2, hlastT, hdrop, hlastE,
              hok, hless, hpre, hreq2, hcause⟩ := ih (ids0 ++ [to.String ra.ID]) w2
          have hseg_term : ∀ x ∈ seg, x.terminal = none := by
            intro x hx
            rw [hseg] at hx
            rcases List.mem_append.mp hx with hx | hx
            · exact hpnfs_term x hx
            · rw [List.mem_singleton.mp hx]
              rfl
          have hseg_for : seg.filterMap Call.createdFor = [role] := by
            rw [hseg, List.filterMap_append,
              filterMap_eq_nil_of_forall _ _ (fun x hx => Call.createdFor_of_transient (hpnfs x hx))]
            rfl
          have hseg_id : seg.filterMap Call.createdID = [to.String ra.ID] := by
            rw [hseg, List.filterMap_append,
              filterMap_eq_nil_of_forall _ _ (fun x hx => Call.createdID_of_transient (hpnfs x hx))]
            rfl
          have hseg_last : seg.getLast? =
              some (Call.CreateRoleAssignment role.Scope aid role.RoleID pid ra none) := by
            rw [hseg, List.getLast?_concat]
          -- the last call of the whole run, when the later roles made no call
          have hlast_nil : ∀ a, (seg ++ ([] : List Call)).getLast? = some a →
              a = Call.CreateRoleAssignment role.Scope aid role.RoleID pid ra none := by
            intro a ha
            rw [List.append_nil, hseg_last] at ha
            exact (Option.some.inj ha).symm
          refine ⟨ids, err2, w3, seg ++ evs, ?_, ?_, le_trans hnow hnow2, ?_, ?_, ?_, ?_, ?_, ?_, ?_,
            ?_, ?_, ?_⟩
          · simp only [assignRoles.loop, World.GenerateUUID, hU, hret]
            exact hret2
          · rw [hlog2, hlog, List.append_assoc]
          · intro x hx
            rcases List.mem_append.mp hx with hx | hx
            · exact hcalls x hx
            · exact hcalls2 x hx
          · refine List.Chain'.append hchain hchain2 ?_
            intro x hx y _ hxt
            rw [hseg_last] at hx
            cases hx
            rw [hlast] at hxt
            cases hxt
          · intro a ha hta
            by_cases hevs : evs = []
            · subst hevs
              rw [hlast_nil a ha, hlast] at hta
              cases hta
            · rw [List.getLast?_append_of_ne_nil _ hevs] at ha
              obtain ⟨entry, d, h1, h2, h3, h4, h5⟩ := hlastT a ha hta
              exact ⟨entry, d, le_trans hnow h1, h2, h3, h4, h5⟩
          · intro a ha
            by_cases hevs : evs = []
            · subst hevs
              rw [List.append_nil] at ha
              exact hseg_term a (List.mem_of_mem_dropLast ha)
            · rw [List.dropLast_append_of_ne_nil _ hevs] at ha
              rcases List.mem_append.mp ha with ha | ha
              · exact hseg_term a ha
              · exact hdrop a ha
          · intro a e ha hte
            by_cases hevs : evs = []
            · subst hevs
              rw [hlast_nil a ha] at hte
              cases hte
            · rw [List.getLast?_append_of_ne_nil _ hevs] at ha
              exact hlastE a e ha hte
          · intro herr
            obtain ⟨hids, hroles⟩ := hok herr
            refine ⟨?_, ?_⟩
            · rw [hids, List.filterMap_append, hseg_id, List.append_assoc]
            · rw [List.filterMap_append, hseg_for, hroles]
              rfl
          · intro herr
            obtain ⟨hids, hlen⟩ := hless herr
            refine ⟨hids, ?_⟩
            rw [List.filterMap_append, hseg_for]
            simp only [List.singleton_append, List.length_cons]
            omega
          · rw [List.filterMap_append, hseg_for]
            exact (List.prefix_cons_inj role).mpr hpre
          · intro a ha hcf
            by_cases hevs : evs = []
            · subst hevs
              rw [hlast_nil a ha] at hcf
              cases hcf
            · rw [List.getLast?_append_of_ne_nil _ hevs] at ha
              rw [List.filterMap_append, hseg_for, hreq2 a ha hcf]
              simp
          · rcases hcause with h | ⟨e, w0, h1, h2, h3, h4, h5⟩ | ⟨a, e, h1, h2⟩ | ⟨a, h1, h2⟩
            · exact Or.inl h
            · refine Or.inr (Or.inl ⟨e, w0, h1, ?_, h3, h4, ?_⟩)
              · rw [h2, hlog, List.append_assoc]
              · intro a ha
                by_cases hevs : evs = []
                · subst hevs
                  rw [hlast_nil a ha]
                  simp [Call.createdFor]
                · rw [List.getLast?_append_of_ne_nil _ hevs] at ha
                  exact h5 a ha
            · have hevs : evs ≠ [] := by
                rintro rfl
                simp at h1
              exact Or.inr (Or.inr (Or.inl
                ⟨a, e, by rw [List.getLast?_append_of_ne_nil _ hevs]; exact h1, h2⟩))
            · have hevs : evs ≠ [] := by
                rintro rfl
                simp at h1
              exact Or.inr (Or.inr (Or.inr
                ⟨a, by rw [List.getLast?_append_of_ne_nil _ hevs]; exact h1, h2⟩))

/-- The loop of `assignRoles` under a context without deadline that is never cancelled, when
`uuid.GenerateUUID` does not fail and the provider answers every request with success or with
a transient error and has at most ten transient answers to give (`m` counts those that
remain): it returns without error. -/
theorem assignRoles_loop_live {π : Type} (rt : Runtime) (u : UUIDSource π) (c : client π)
    (pid : Option String) (m : π → Nat)
    (huuid : ∀ x, (u.GenerateUUID x).1.2 = none ∧ m (u.GenerateUUID x).2 ≤ m x)
    (herr : ∀ s a r p x e, (c.provider.CreateRoleAssignment s a r p x).1.2 = some e →
      strings.Contains e.Error "PrincipalNotFound" = true ∧
        m (c.provider.CreateRoleAssignment s a r p x).2 < m x)
    (hok : ∀ s a r p x, (c.provider.CreateRoleAssignment s a r p x).1.2 = none →
      m (c.provider.CreateRoleAssignment s a r p x).2 ≤ m x)
    (roles : List AzureRole) :
    ∀ (ids0 : List String) (w : World π), m w.ext ≤ 10 →
      ∃ ids w1,
        assignRoles.loop rt u c { deadline := none, cancelAt := none } pid roles ids0 w =
          some (Outcome.ret (ids, none), w1) := by
  induction roles with
  | nil =>
    intro ids0 w _
    exact ⟨ids0, w, rfl⟩
  | cons role rest ih =>
    intro ids0 w hm
    rcases hU : u.GenerateUUID w.ext with ⟨⟨aid, eu⟩, x1⟩
    have h1 := huuid w.ext
    rw [hU] at h1
    simp only at h1
    obtain ⟨heu, hx1⟩ := h1
    subst heu
    obtain ⟨id, run, w2, hret, hm2⟩ :=
      assignRoles.retry_live rt c role aid pid m herr hok { w with ext := x1 }
        (le_trans hx1 hm)
    have hm3 : m w2.ext ≤ 10 := le_trans hm2 (le_trans hx1 hm)
    obtain ⟨ids, w3, hret2⟩ := ih (ids0 ++ [id]) w2 hm3
    refine ⟨ids, w3, ?_⟩
    simp only [assignRoles.loop, World.GenerateUUID, hU, hret]
    exact hret2

theorem Call.created_lengths (evs : List Call) :
    (evs.filterMap Call.createdID).length = (evs.filterMap Call.createdFor).length := by
  induction evs with
  | nil => rfl
  | cons a l ih =>
    cases a with
    | CreateRoleAssignment s a r p ra err =>
      cases err with
      | none => simp [List.filterMap_cons, Call.createdID, Call.createdFor, ih]
      | some e => simp [List.filterMap_cons, Call.createdID, Call.createdFor, ih]
    | _ => simp [List.filterMap_cons, Call.createdID, Call.createdFor, ih]

theorem Call.created_zip (evs : List Call) :
    evs.filterMap Call.created =
      (evs.filterMap Call.createdFor).zip (evs.filterMap Call.createdID) := by
  induction evs with
  | nil => rfl
  | cons a l ih =>
    cases a with
    | CreateRoleAssignment s a r p ra err =>
      cases err with
      | none =>
        simp [List.filterMap_cons, Call.createdID, Call.createdFor, Call.created, ih]
      | some e =>
        simp [List.filterMap_cons, Call.createdID, Call.createdFor, Call.created, ih]
    | _ => simp [List.filterMap_cons, Call.createdID, Call.createdFor, Call.created, ih]

/-- C2: `assignRoles` separates transient from terminal errors and returns the created IDs.
The closure it retries reports done=false exactly when the provider answered with an error
whose text contains "PrincipalNotFound". For every runtime, UUID source, provider, context,
list of roles and world, `assignRoles` returns, without going back in time, and the provider
calls `evs` it has made are such that:
* every call is a call of `CreateRoleAssignment` for the principal, logged with the answer of
  the provider, under an assignment ID that `uuid.GenerateUUID` returned;
* the roles are processed in order: the calls answered without error are calls for a prefix of
  the requested roles, in role order, and a last call answered with an error is a call for the
  role that follows that prefix;
* a call answered with a transient error is followed by a call with the same scope, assignment
  ID, role and principal, unless it is the last call; it is the last call only when the context
  that `retry` waits on (entered at the instant `entry`) is done at an instant `d` not after the
  return of `assignRoles`, and then the function returns no IDs and the error "retry failed" of
  that context, wrapped;
* a call answered with an error of any other text is the last call, and the function then
  returns no IDs and that error, wrapped;
* an error is returned only for one of three causes: `uuid.GenerateUUID` failed after the logged
  calls, the last of which, if any, was answered without error (the error is then the one of
  `uuid.GenerateUUID`); the last call was answered with an error of another text; the last call
  was answered with a transient error;
* no error is returned exactly when the calls answered without error are calls for the requested
  roles, one per role, in role order; the IDs returned are then the IDs that the provider
  returned in those calls, in the same order, one per role, each for its role; with an error
  no ID is returned;
* when every role eventually succeeds the function returns without error, one ID per role: so
  it is when `uuid.GenerateUUID` does not fail, no call was answered with an error of another
  text and the last call was not answered with a transient error; and so it is, under a
  context without deadline that is never cancelled, when `uuid.GenerateUUID` does not fail and
  the provider answers every request with success or with a transient error and has at most ten
  transient answers to give (`m` counts those that remain). -/
theorem assignRoles_separates_errors {π : Type} (rt : Runtime) (u : UUIDSource π) (c : client π)
    (ctx : Context) (pid : Option String) (roles : List AzureRole) (w : World π) :
    (∀ (role : AzureRole) (aid : String) (w0 : World π),
      (assignRoles.attempt c role aid pid w0).1.2.1 = false ↔
        ∃ e, (c.provider.CreateRoleAssignment role.Scope aid role.RoleID pid w0.ext).1.2 = some e ∧
          strings.Contains e.Error "PrincipalNotFound" = true) ∧
    ∃ ids err w1 evs,
      assignRoles rt u c ctx pid roles w = some (Outcome.ret (ids, err), w1) ∧
      w1.log = w.log ++ evs ∧
      w.now ≤ w1.now ∧
      (∀ a ∈ evs, a.isCreateFor pid = true ∧ a.answeredBy c.provider ∧ a.generatedBy u) ∧
      (evs.filterMap Call.createdFor <+: roles) ∧
      (∀ a, evs.getLast? = some a → a.createdFor = none →
        a.requested = roles[(evs.filterMap Call.createdFor).length]?) ∧
      (∀ pre a post, evs = pre ++ a :: post → a.transient = true →
        (∃ b rest, post = b :: rest ∧ a.sameRequest b = true) ∨
        (post = [] ∧ ids = [] ∧
          ∃ entry d, w.now ≤ entry ∧ entry ≤ w1.now ∧
            (retryContext ctx entry).doneAt = some d ∧ d ≤ w1.now ∧
            err = some (GoError.Wrapf "error while assigning roles: \x7b\x7berr\x7d\x7d"
              (GoError.Errorf "retry failed: " (retryContext ctx entry).Err)))) ∧
      (∀ pre a post e, evs = pre ++ a :: post → a.terminal = some e →
        post = [] ∧ ids = [] ∧
          err = some (GoError.Wrapf "error while assigning roles: \x7b\x7berr\x7d\x7d" e)) ∧
      (err = none ∨
       (∃ e w0, err = some e ∧ w0.log = w.log ++ evs ∧
          (World.GenerateUUID u w0).1.2 = some e ∧ (World.GenerateUUID u w0).2 = w1 ∧
          ∀ a, evs.getLast? = some a → a.createdFor ≠ none) ∨
       (∃ a e, evs.getLast? = some a ∧ a.terminal = some e) ∨
       (∃ a, evs.getLast? = some a ∧ a.transient = true)) ∧
      (evs.filterMap Call.createdFor = roles ↔ err = none) ∧
      (err ≠ none → ids = []) ∧
      (err = none →
        ids = evs.filterMap Call.createdID ∧ ids.length = roles.length ∧
          evs.filterMap Call.created = roles.zip ids) ∧
      ((∀ x, (u.GenerateUUID x).1.2 = none) → (∀ a ∈ evs, a.terminal = none) →
        (∀ a, evs.getLast? = some a → a.transient = false) →
        err = none ∧ ids.length = roles.length) ∧
      (ctx.deadline = none → ctx.cancelAt = none →
        ∀ m : π → Nat,
          (∀ x, (u.GenerateUUID x).1.2 = none ∧ m (u.GenerateUUID x).2 ≤ m x) →
          (∀ s a r p x e, (c.provider.CreateRoleAssignment s a r p x).1.2 = some e →
            strings.Contains e.Error "PrincipalNotFound" = true ∧
              m (c.provider.CreateRoleAssignment s a r p x).2 < m x) →
          (∀ s a r p x, (c.provider.CreateRoleAssignment s a r p x).1.2 = none →
            m (c.provider.CreateRoleAssignment s a r p x).2 ≤ m x) →
          m w.ext ≤ 10 →
          err = none ∧ ids.length = roles.length) := by
  constructor
  · intro role aid w0
    rcases hp : c.provider.CreateRoleAssignment role.Scope aid role.RoleID pid w0.ext
      with ⟨⟨ra, err⟩, x1⟩
    simp only [assignRoles.attempt, World.CreateRoleAssignment, hp]
    cases err with
    | none => simp
    | some e =>
      by_cases hc : strings.Contains e.Error "PrincipalNotFound" = true
      · simp [hc]
      · simp [hc]
  · obtain ⟨ids, err, w1, evs, hret, hlog, hnow, hcalls, hchain, hlastT, hdrop, hlastE, hok, hless,
      hpre, hreq, hcause⟩ := assignRoles_loop_spec rt u c ctx pid roles [] w
    have hsucc : err = none →
        ids = evs.filterMap Call.createdID ∧ ids.length = roles.length ∧
          evs.filterMap Call.created = roles.zip ids := by
      intro herr
      obtain ⟨hids, hroles⟩ := hok herr
      rw [List.nil_append] at hids
      refine ⟨hids, ?_, ?_⟩
      · rw [hids, ← hroles]
        exact Call.created_lengths evs
      · rw [Call.created_zip, hroles, ← hids]
    refine ⟨ids, err, w1, evs, hret, hlog, hnow, hcalls, hpre, hreq, ?_, ?_, hcause, ?_,
      fun h => (hless h).1, hsucc, ?_, ?_⟩
    · -- a transient answer
      intro pre a post hevs hta
      cases post with
      | nil =>
        have hl : evs.getLast? = some a := by
          rw [hevs]
          exact List.getLast?_concat pre
        obtain ⟨entry, d, h1, h2, h3, h4, h5⟩ := hlastT a hl hta
        exact Or.inr ⟨rfl, (hless (by rw [h5]; simp)).1, entry, d, h1, h2, h3, h4, h5⟩
      | cons b rest =>
        rw [hevs] at hchain
        have := (List.chain'_split.mp hchain).2
        exact Or.inl ⟨b, rest, rfl, (List.chain'_cons.mp this).1 hta⟩
    · -- an answer that is an error of another text
      intro pre a post e hevs hte
      cases post with
      | nil =>
        have hl : evs.getLast? = some a := by
          rw [hevs]
          exact List.getLast?_concat pre
        have herr := hlastE a e hl hte
        exact ⟨rfl, (hless (by rw [herr]; simp)).1, herr⟩
      | cons b rest =>
        have hmem : a ∈ evs.dropLast := by
          rw [hevs, List.dropLast_append_of_ne_nil _ (by simp)]
          simp
        rw [hdrop a hmem] at hte
        cases hte
    · constructor
      · intro hroles
        by_contra herr
        have := (hless herr).2
        rw [hroles] at this
        exact Nat.lt_irrefl _ this
      · intro herr
        exact (hok herr).2
    · -- no call answered with a terminal error, no retry abandoned
      intro huuid hterm hlast
      have herr : err = none := by
        rcases hcause with h | ⟨e, w0, -, -, h3, -, -⟩ | ⟨a, e, h1, h2⟩ | ⟨a, h1, h2⟩
        · exact h
        · have := huuid w0.ext
          simp only [World.GenerateUUID] at h3
          rw [this] at h3
          cases h3
        · rw [hterm a (List.mem_of_getLast?_eq_some h1)] at h2
          cases h2
        · rw [hlast a h1] at h2
          cases h2
      exact ⟨herr, (hsucc herr).2.1⟩
    · -- a provider that answers with success after at most ten transient answers
      intro hdl hca m huuid hperr hpok hm
      have hctx : ctx = { deadline := none, cancelAt := none } := by
        rcases ctx with ⟨dl, ca⟩
        simp only at hdl hca
        rw [hdl, hca]
      subst hctx
      obtain ⟨ids2, w2, hret2⟩ :=
        assignRoles_loop_live rt u c pid m huuid hperr hpok roles [] w hm
      have heq : some (Outcome.ret (ids, err), w1) = some (Outcome.ret (ids2, none), w2) := by
        rw [← hret, ← hret2]
      have herr : err = none := by
        injection heq with h1
        injection h1 with h2 _
        injection h2 with h3
        injection h3
      exact ⟨herr, (hsucc herr).2.1⟩

/-- The witness of C2: the hypotheses of its last property hold of the lagging provider, with the
number of transient answers that remain as `m`, so `assignRoles` returns one ID per role
there; and the run on this provider with two transient answers to give: the first role is
requested three times, with a first wait that ends at once and a second wait of two seconds,
the second role once, and the function returns the two IDs of the provider. -/
theorem assignRoles_separates_errors_witness :
    (∀ x, (fixedUUID.GenerateUUID x).1.2 = none ∧ (fixedUUID.GenerateUUID x).2 ≤ x) ∧
    (∀ s a r p x e, (laggingClient.provider.CreateRoleAssignment s a r p x).1.2 = some e →
      strings.Contains e.Error "PrincipalNotFound" = true ∧
        (laggingClient.provider.CreateRoleAssignment s a r p x).2 < x) ∧
    (∀ s a r p x, (laggingClient.provider.CreateRoleAssignment s a r p x).1.2 = none →
      (laggingClient.provider.CreateRoleAssignment s a r p x).2 ≤ x) ∧
    laggingWorld.ext ≤ 10 ∧
    (∃ ids w1,
      assignRoles (constRuntime 0 true) fixedUUID laggingClient background (some "sp")
        exampleRoles laggingWorld = some (Outcome.ret (ids, none), w1) ∧
      ids.length = exampleRoles.length) ∧
    assignRoles (constRuntime 0 true) fixedUUID laggingClient background (some "sp")
        exampleRoles laggingWorld =
      some (Outcome.ret (["/sub/1/0f0e0d0c", "/sub/2/0f0e0d0c"], none),
        { ext := 0, now := 1000 + 2000 * Millisecond,
          log := [
            Call.CreateRoleAssignment "/sub/1" "0f0e0d0c" "reader" (some "sp") { ID := none }
              (some (GoError.New "PrincipalNotFound: principal is not in the directory")),
            Call.CreateRoleAssignment "/sub/1" "0f0e0d0c" "reader" (some "sp") { ID := none }
              (some (GoError.New "PrincipalNotFound: principal is not in the directory")),
            Call.CreateRoleAssignment "/sub/1" "0f0e0d0c" "reader" (some "sp")
              { ID := some "/sub/1/0f0e0d0c" } none,
            Call.CreateRoleAssignment "/sub/2" "0f0e0d0c" "owner" (some "sp")
              { ID := some "/sub/2/0f0e0d0c" } none] }) := by
  have h1 : ∀ x, (fixedUUID.GenerateUUID x).1.2 = none ∧ (fixedUUID.GenerateUUID x).2 ≤ x :=
    fun x => ⟨rfl, le_refl _⟩
  have h2 : ∀ s a r p x e, (laggingClient.provider.CreateRoleAssignment s a r p x).1.2 = some e →
      strings.Contains e.Error "PrincipalNotFound" = true ∧
        (laggingClient.provider.CreateRoleAssignment s a r p x).2 < x := by
    intro s a r p x e h
    cases x with
    | zero => cases h
    | succ k =>
      have he : e = GoError.New "PrincipalNotFound: principal is not in the directory" :=
        (Option.some.inj h).symm
      subst he
      exact ⟨by decide, Nat.lt_succ_self k⟩
  have h3 : ∀ s a r p x, (laggingClient.provider.CreateRoleAssignment s a r p x).1.2 = none →
      (laggingClient.provider.CreateRoleAssignment s a r p x).2 ≤ x := by
    intro s a r p x h
    cases x with
    | zero => exact le_refl _
    | succ k => cases h
  have h4 : laggingWorld.ext ≤ 10 := by decide
  refine ⟨h1, h2, h3, h4, ?_, by rfl⟩
  obtain ⟨-, ids, err, w1, evs, hret, -, -, -, -, -, -, -, -, -, -, -, -, hlive⟩ :=
    assignRoles_separates_errors (constRuntime 0 true) fixedUUID laggingClient background
      (some "sp") exampleRoles laggingWorld
  obtain ⟨herr, hlen⟩ := hlive rfl rfl (fun x => x) h1 h2 h3 h4
  subst herr
  exact ⟨ids, w1, hret, hlen⟩

/-! ## `getClientSettings` -/

theorem firstAvailable_pair (e s : String) : firstAvailable [e, s] = byPrecedence e s := by
  unfold byPrecedence
  by_cases he : e = ""
  · by_cases hs : s = ""
    · simp [firstAvailable, he, hs]
    · simp [firstAvailable, he, hs]
  · simp [firstAvailable, he]

theorem firstAvailable_default (e s : String) :
    firstAvailable [e, s, "AZUREPUBLICCLOUD"] = environmentName e s := by
  unfold environmentName
  by_cases he : e = ""
  · by_cases hs : s = ""
    · simp [firstAvailable, he, hs]
    · simp [firstAvailable, he, hs]
  · simp [firstAvailable, he]

/-- C11: for every assignment of the environment variables and every stored configuration,
`getClientSettings` fails with "subscription_id is required" exactly when the environment
variable and the stored subscription ID are both empty, otherwise with "tenant_id is required"
exactly when both tenant sources are empty, otherwise with the error of the library when the
resolved environment name (the first non-empty of the environment variable, the stored value and
"AZUREPUBLICCLOUD") is not known, otherwise with the wrapped error of the plugin environment when
that cannot be obtained; and otherwise it returns settings in which client ID, client secret,
subscription ID and tenant ID each are the value of the environment variable when that is not
empty and the stored value otherwise. -/
theorem getClientSettings_precedence {ε ρ : Type} (h : SettingsHost ε ρ) (config : azureConfig) :
    getClientSettings h config =
      if h.Getenv "AZURE_SUBSCRIPTION_ID" = "" ∧ config.SubscriptionID = "" then
        (none, some (GoError.New "subscription_id is required"))
      else if h.Getenv "AZURE_TENANT_ID" = "" ∧ config.TenantID = "" then
        (none, some (GoError.New "tenant_id is required"))
      else
        match h.EnvironmentFromName
          (environmentName (h.Getenv "AZURE_ENVIRONMENT") config.Environment) with
        | (_, some err) => (none, some err)
        | (env, none) =>
          match h.PluginEnv with
          | (_, some err) =>
            (none, some (GoError.Wrapf "error loading plugin environment: \x7b\x7berr\x7d\x7d" err))
          | (pluginEnv, none) =>
            (some { SubscriptionID :=
                      byPrecedence (h.Getenv "AZURE_SUBSCRIPTION_ID") config.SubscriptionID,
                    TenantID := byPrecedence (h.Getenv "AZURE_TENANT_ID") config.TenantID,
                    ClientID := byPrecedence (h.Getenv "AZURE_CLIENT_ID") config.ClientID,
                    ClientSecret :=
                      byPrecedence (h.Getenv "AZURE_CLIENT_SECRET") config.ClientSecret,
                    Environment := env, PluginEnv := pluginEnv }, none) := by
  have hsub : (byPrecedence (h.Getenv "AZURE_SUBSCRIPTION_ID") config.SubscriptionID = "") ↔
      (h.Getenv "AZURE_SUBSCRIPTION_ID" = "" ∧ config.SubscriptionID = "") := by
    unfold byPrecedence
    by_cases he : h.Getenv "AZURE_SUBSCRIPTION_ID" = "" <;> simp [he]
  have hten : (byPrecedence (h.Getenv "AZURE_TENANT_ID") config.TenantID = "") ↔
      (h.Getenv "AZURE_TENANT_ID" = "" ∧ config.TenantID = "") := by
    unfold byPrecedence
    by_cases he : h.Getenv "AZURE_TENANT_ID" = "" <;> simp [he]
  simp only [getClientSettings, firstAvailable_pair, firstAvailable_default, hsub, hten]

/-! ## `saveConfig` and the cached client -/

/-- C12 at a failing input: a write request that supplies no field, over the example
configuration, on a storage whose `Put` fails. The request passes validation, `Put` is called
and fails, and `pathConfigWrite` returns no error and resets the cached client, while the
storage holds what it held. The last part shows why, for every backend: the error that
`saveConfig` returns is the error of the JSON encoding, whatever `Put` answers. -/
theorem pathConfigWrite_resets_on_failed_put :
    (failingBackend.Put exampleEntry exampleState.storage).1 =
      some (GoError.New "storage is read-only") ∧
    exampleState.client = some () ∧
    pathConfigWrite failingBackend emptyRequest exampleState =
      ((none, none),
        { storage := some exampleEntry, client := none, puts := [exampleEntry], resets := 1 }) ∧
    (∀ (σ κ : Type) (b : Backend σ) (cfg : azureConfig) (st : BackendState σ κ),
      (saveConfig b cfg st).1 = (b.StorageEntryJSON configPath cfg).2) := by
  refine ⟨rfl, rfl, by rfl, ?_⟩
  intro σ κ b cfg st
  unfold saveConfig
  rcases hj : b.StorageEntryJSON configPath cfg with ⟨entry, err⟩
  cases err <;> rfl

end AzureSecrets
